import Mathlib

/-!
# Verification of the nightly batch letter-generation subsystem

A shallow embedding of the core of the `mari-local` repository:
request intake (`letter_request_manager.py`), rate limiting
(`async_rate_limiter.py`), the batch scheduler (`batch_scheduler.py`),
the background runner (`background_processor.py`) and the durable JSON
store (`async_storage_manager.py`).

Python dicts keyed by strings are modelled as association lists with
unique keys (`lookupA` / `insertA`); the ambient wall clock
(`datetime.now()`) is threaded explicitly as a `Clock` value; the
external LLM generation pipeline is abstracted as a per-job outcome,
as the specification itself prescribes.  File-level persistence (the
atomic-save and backup-recovery paths) is modelled separately over an
explicit filesystem state, polymorphic in the document payload.
-/

namespace Mari

/-- Dict lookup: `d.get(k)` on a python dict modelled as an association list. -/
def lookupA {α : Type} (l : List (String × α)) (k : String) : Option α :=
  match l.find? (fun p => p.1 == k) with
  | some p => some p.2
  | none => none

/-- Dict assignment `d[k] = v`: replaces any existing binding for `k`.
Keeps keys unique by construction. -/
def insertA {α : Type} (l : List (String × α)) (k : String) (v : α) :
    List (String × α) :=
  (k, v) :: l.filter (fun p => ¬ (p.1 == k))

/-- Number of bindings stored for key `k`. -/
def countKey {α : Type} (l : List (String × α)) (k : String) : Nat :=
  (l.filter (fun p => p.1 == k)).length

theorem lookupA_insertA_self {α : Type} (l : List (String × α)) (k : String)
    (v : α) : lookupA (insertA l k v) k = some v := by
  simp [lookupA, insertA, List.find?]

theorem find?_filter_ne {α : Type} (l : List (String × α)) (k k' : String)
    (h : k' ≠ k) :
    (l.filter (fun p => ¬ (p.1 == k))).find? (fun p => p.1 == k')
      = l.find? (fun p => p.1 == k') := by
  induction l with
  | nil => rfl
  | cons p rest ih =>
    by_cases hpk : p.1 = k
    · rw [List.filter_cons_of_neg (by simp [hpk]),
        List.find?_cons_of_neg _ (by simp [hpk]; intro he; exact h he.symm), ih]
    · rw [List.filter_cons_of_pos (by simp [hpk])]
      by_cases hpq : p.1 = k'
      · rw [List.find?_cons_of_pos _ (by simp [hpq]),
          List.find?_cons_of_pos _ (by simp [hpq])]
      · rw [List.find?_cons_of_neg _ (by simp [hpq]),
          List.find?_cons_of_neg _ (by simp [hpq]), ih]

theorem lookupA_insertA_ne {α : Type} (l : List (String × α)) (k k' : String)
    (v : α) (h : k' ≠ k) : lookupA (insertA l k v) k' = lookupA l k' := by
  have hkk : (k == k') = false := by
    simp [beq_iff_eq]; exact fun he => h he.symm
  simp only [lookupA, insertA, List.find?_cons, hkk]
  rw [find?_filter_ne l k k' h]

theorem countKey_insertA_self {α : Type} (l : List (String × α)) (k : String)
    (v : α) : countKey (insertA l k v) k = 1 := by
  simp only [countKey, insertA]
  have : (l.filter (fun p => ¬ (p.1 == k))).filter (fun p => p.1 == k) = [] := by
    induction l with
    | nil => rfl
    | cons p rest ih =>
      by_cases hp : p.1 = k
      · simp only [List.filter, hp]
        simpa [hp] using ih
      · have hne : (p.1 == k) = false := by simp [beq_iff_eq, hp]
        simp only [List.filter, hne]
        simpa [hne] using ih
  simp [List.filter, this]

/-! ## Data model (§3 of the spec; `async_storage_manager.py` document schema) -/

/-- `UserRecord.profile` from `async_storage_manager.get_user_data`'s default,
with the fields later written by `record_request`, `_save_generated_letter`
and `update_user_history`'s stats pass. -/
structure Profile where
  created_at : String
  last_request : Option String
  total_letters : Nat
  last_activity : Option String
  deriving Repr, DecidableEq

/-- One entry of `user_data["letters"]` as built by
`BatchScheduler._save_generated_letter`.  The generator's `metadata` dict is
abstracted to the single field the scheduler reads
(`metadata.get("generation_time", 0)`). -/
structure LetterRec where
  theme : String
  content : String
  status : String
  generated_at : String
  generation_time : Nat
  deriving Repr, DecidableEq

/-- One entry of `user_data["requests"]` as built by
`RequestManager.submit_request` and mutated by `mark_request_processed` /
`mark_request_failed`.  `Option` fields model keys that may be absent. -/
structure RequestRec where
  theme : String
  status : String
  requested_at : String
  generation_hour : Int
  request_id : String
  affection : Option Int
  processed_at : Option String
  error_message : Option String
  deriving Repr, DecidableEq

/-- `user_data["rate_limits"]`: per-day counters keyed by DateKey. -/
structure RateLimits where
  daily_requests : List (String × Nat)
  api_calls : List (String × Nat)
  deriving Repr, DecidableEq

/-- One entry of `user_data["history"]` as built by
`UserManager.update_user_history` (the interaction passed by the batch has
none of the optional keys, so the defaults apply). -/
structure HistoryEntry where
  timestamp : String
  type : String
  action : String
  session_id : String
  entry_id : String
  deriving Repr, DecidableEq

/-- A `UserRecord`. -/
structure UserData where
  profile : Profile
  letters : List (String × LetterRec)
  requests : List (String × RequestRec)
  rate_limits : RateLimits
  history : List HistoryEntry
  deriving Repr, DecidableEq

/-- One entry of `system["batch_runs"]` written by `_record_batch_start`
and updated by `_record_batch_completion` / `_record_batch_error`. -/
structure BatchRunRec where
  hour : Int
  start_time : String
  status : String
  end_time : Option String
  execution_time : Option Nat
  processed_count : Option Nat
  success_count : Option Nat
  failed_count : Option Nat
  error_count : Option Nat
  error : Option String
  deriving Repr, DecidableEq

/-- The `system` sub-document. -/
structure SystemInfo where
  last_backup : Option String
  batch_runs : List (String × BatchRunRec)
  created_at : String
  deriving Repr, DecidableEq

/-- The whole durable document: `{ "users": ..., "system": ... }`. -/
structure Storage where
  users : List (String × UserData)
  system : SystemInfo
  deriving Repr, DecidableEq

/-- The ambient wall clock, threaded explicitly in place of
`datetime.now()`.  All calls within one operation observe the same clock. -/
structure Clock where
  /-- `datetime.now().strftime("%Y-%m-%d")` -/
  today : String
  /-- `datetime.now().isoformat()` -/
  now_iso : String
  /-- `datetime.now().strftime("%Y%m%d_%H%M%S")` (batch-id stamp) -/
  stamp : String
  /-- `(tomorrow - now).seconds`: seconds until next midnight -/
  secs_to_midnight : Nat
  /-- `tomorrow.isoformat()` (next reset time) -/
  next_reset_iso : String
  /-- `(end_time - start_time).total_seconds()` of the enclosing batch run -/
  exec_seconds : Nat
  /-- `end_time.isoformat()` of the enclosing batch run -/
  end_iso : String
  deriving Repr, DecidableEq

/-- Environment-derived configuration shared by the components. -/
structure Config where
  min_theme_length : Nat
  max_theme_length : Nat
  max_daily_requests : Nat
  max_api_calls_per_day : Nat
  debug_mode : Bool
  generation_timeout : Nat
  max_history_entries : Nat
  deriving Repr, DecidableEq

/-- Production defaults of the configuration (`os.getenv` fallbacks). -/
def defaultConfig : Config :=
  { min_theme_length := 1
    max_theme_length := 200
    max_daily_requests := 1
    max_api_calls_per_day := 10
    debug_mode := false
    generation_timeout := 300
    max_history_entries := 100 }

/-! ## Storage operations (`async_storage_manager.py`, document level)

`load_data`/`save_data` route through the file layer; at the document level
(one shared in-process store, the single-writer case the spec assumes) a
load followed by a mutation and a save is a pure state transition.  The
file-level atomic-save and recovery paths are modelled separately below. -/

/-- The fresh user record created by `get_user_data` for an unknown id. -/
def defaultUserData (now : String) : UserData :=
  { profile := { created_at := now, last_request := none, total_letters := 0
                 last_activity := none }
    letters := []
    requests := []
    rate_limits := { daily_requests := [], api_calls := [] }
    history := [] }

/-- `AsyncStorageManager.get_user_data`: returns the user's record, creating
and persisting a fresh one for an unknown id. -/
def getUserData (s : Storage) (uid : String) (now : String) :
    UserData × Storage :=
  match lookupA s.users uid with
  | some ud => (ud, s)
  | none =>
      let ud := defaultUserData now
      (ud, { s with users := insertA s.users uid ud })

/-- `AsyncStorageManager.update_user_data`. -/
def updateUserData (s : Storage) (uid : String) (ud : UserData) : Storage :=
  { s with users := insertA s.users uid ud }

/-- `AsyncStorageManager.get_all_users`. -/
def getAllUsers (s : Storage) : List String :=
  s.users.map (fun p => p.1)

/-- `AsyncStorageManager.get_system_info`. -/
def getSystemInfo (s : Storage) : SystemInfo :=
  s.system

theorem getUserData_mem (s : Storage) (uid now : String) (ud : UserData)
    (h : lookupA s.users uid = some ud) : getUserData s uid now = (ud, s) := by
  simp [getUserData, h]

theorem lookupA_getUserData_self (s : Storage) (uid now : String) :
    lookupA (getUserData s uid now).2.users uid
      = some (getUserData s uid now).1 := by
  unfold getUserData
  cases h : lookupA s.users uid with
  | some ud => simpa [h]
  | none => simp [h, lookupA_insertA_self]

theorem getUserData_frame (s : Storage) (uid now : String) (uid' : String)
    (h : uid' ≠ uid) :
    lookupA (getUserData s uid now).2.users uid' = lookupA s.users uid' := by
  unfold getUserData
  cases hl : lookupA s.users uid with
  | some ud => simp
  | none => simp [lookupA_insertA_ne _ _ _ _ h]

theorem updateUserData_self (s : Storage) (uid : String) (ud : UserData) :
    lookupA (updateUserData s uid ud).users uid = some ud := by
  simp [updateUserData, lookupA_insertA_self]

theorem updateUserData_frame (s : Storage) (uid : String) (ud : UserData)
    (uid' : String) (h : uid' ≠ uid) :
    lookupA (updateUserData s uid ud).users uid' = lookupA s.users uid' := by
  simp [updateUserData, lookupA_insertA_ne _ _ _ _ h]

/-! ## Rate limiter (`async_rate_limiter.py`, `AsyncRateLimitManager`)

The storage read inside each check is a fallible operation
(`await self.storage.get_user_data(...)` can raise); the `…Read` variants
take the read's outcome explicitly, mirroring the `try`/`except` structure
of the source.  The state-threaded versions below instantiate them with the
successful read of the shared document. -/

/-- The `limit_info` dict built by `check_daily_request_limit` /
`check_api_call_limit`; the `except` branch returns only an `error` key. -/
structure LimitInfo where
  today_count : Nat
  max_count : Nat
  remaining : Nat
  reset_time : String
  debug_mode : Bool
  error : Option String
  deriving Repr, DecidableEq

/-- `AsyncRateLimitManager._get_next_reset_time`. -/
def getNextResetTime (c : Clock) : String :=
  c.next_reset_iso

/-- `AsyncRateLimitManager._calculate_remaining_time`:
`remaining.seconds // 3600` hours and `(remaining.seconds % 3600) // 60`
minutes until the next midnight. -/
def calculateRemainingTime (c : Clock) : String :=
  toString (c.secs_to_midnight / 3600) ++ "時間"
    ++ toString (c.secs_to_midnight % 3600 / 60) ++ "分後"

/-- `AsyncRateLimitManager.check_daily_request_limit`, with the outcome of
the storage read passed explicitly.  `Except.error` models the storage read
raising: the `except` branch returns `(False, {"error": ...})`. -/
def checkDailyRequestLimitRead (cfg : Config) (c : Clock)
    (read : Except String UserData) : Bool × LimitInfo :=
  match read with
  | .error e =>
      (false, { today_count := 0, max_count := 0, remaining := 0
                reset_time := "", debug_mode := false, error := some e })
  | .ok userData =>
      let todayRequests :=
        (lookupA userData.rate_limits.daily_requests c.today).getD 0
      let isAllowed := todayRequests < cfg.max_daily_requests
      (isAllowed,
        { today_count := todayRequests
          max_count := cfg.max_daily_requests
          remaining := cfg.max_daily_requests - todayRequests
          reset_time := getNextResetTime c
          debug_mode := cfg.debug_mode
          error := none })

/-- `AsyncRateLimitManager.check_api_call_limit`, read outcome explicit. -/
def checkApiCallLimitRead (cfg : Config) (c : Clock)
    (read : Except String UserData) : Bool × LimitInfo :=
  match read with
  | .error e =>
      (false, { today_count := 0, max_count := 0, remaining := 0
                reset_time := "", debug_mode := false, error := some e })
  | .ok userData =>
      let todayCalls :=
        (lookupA userData.rate_limits.api_calls c.today).getD 0
      let isAllowed := todayCalls < cfg.max_api_calls_per_day
      (isAllowed,
        { today_count := todayCalls
          max_count := cfg.max_api_calls_per_day
          remaining := cfg.max_api_calls_per_day - todayCalls
          reset_time := getNextResetTime c
          debug_mode := cfg.debug_mode
          error := none })

/-- `AsyncRateLimitManager.is_request_allowed`, with the outcome of each
check's storage read passed explicitly (the daily check reads first; the
API-call check only reads when the first check allows). -/
def isRequestAllowedRead (cfg : Config) (c : Clock)
    (read1 read2 : Except String UserData) : Bool × String :=
  let (requestAllowed, _) := checkDailyRequestLimitRead cfg c read1
  if ¬ requestAllowed then
    (false, "1日のリクエスト制限に達しています。次回リクエスト可能時刻: "
      ++ calculateRemainingTime c)
  else
    let (apiAllowed, _) := checkApiCallLimitRead cfg c read2
    if ¬ apiAllowed then
      (false, "API呼び出し制限に達しています。次回リクエスト可能時刻: "
        ++ calculateRemainingTime c)
    else
      (true, "リクエスト可能です")

/-- `check_daily_request_limit` against the live document (read succeeds;
`get_user_data` may create the user record). -/
def checkDailyRequestLimit (cfg : Config) (s : Storage) (uid : String)
    (c : Clock) : (Bool × LimitInfo) × Storage :=
  let g := getUserData s uid c.now_iso
  (checkDailyRequestLimitRead cfg c (.ok g.1), g.2)

/-- `check_api_call_limit` against the live document. -/
def checkApiCallLimit (cfg : Config) (s : Storage) (uid : String)
    (c : Clock) : (Bool × LimitInfo) × Storage :=
  let g := getUserData s uid c.now_iso
  (checkApiCallLimitRead cfg c (.ok g.1), g.2)

/-- `is_request_allowed` against the live document. -/
def isRequestAllowed (cfg : Config) (s : Storage) (uid : String)
    (c : Clock) : (Bool × String) × Storage :=
  let r1 := checkDailyRequestLimit cfg s uid c
  if ¬ r1.1.1 then
    ((false, "1日のリクエスト制限に達しています。次回リクエスト可能時刻: "
      ++ calculateRemainingTime c), r1.2)
  else
    let r2 := checkApiCallLimit cfg r1.2 uid c
    if ¬ r2.1.1 then
      ((false, "API呼び出し制限に達しています。次回リクエスト可能時刻: "
        ++ calculateRemainingTime c), r2.2)
    else
      ((true, "リクエスト可能です"), r2.2)

/-- `AsyncRateLimitManager.record_request`: increments today's counter and
stamps the profile's `last_request`. -/
def recordRequest (s : Storage) (uid : String) (c : Clock) : Storage :=
  let g := getUserData s uid c.now_iso
  let ud := g.1
  let s1 := g.2
  let newCount := (lookupA ud.rate_limits.daily_requests c.today).getD 0 + 1
  let ud' :=
    { ud with
      rate_limits :=
        { ud.rate_limits with
          daily_requests :=
            insertA ud.rate_limits.daily_requests c.today newCount }
      profile := { ud.profile with last_request := some c.today } }
  updateUserData s1 uid ud'

/-! ## Request intake (`letter_request_manager.py`, `RequestManager`) -/

/-- `RequestManager.valid_generation_hours`. -/
def validGenerationHours : List Int := [2, 3, 4]

/-- python `str.strip()`: drops leading and trailing whitespace.
(Defined over the character list; the built-in `String.trim` is
well-founded recursion, which concrete evaluation cannot unfold.) -/
def stripString (s : String) : String :=
  String.mk
    (((s.toList.dropWhile Char.isWhitespace).reverse.dropWhile
      Char.isWhitespace).reverse)

/-- `RequestManager.validate_theme`: falsy/short/long themes and themes
containing control characters other than newline, carriage return and tab
are rejected; length bounds apply to the stripped theme. -/
def validateTheme (cfg : Config) (theme : String) : Bool :=
  if theme = "" then false
  else
    let t := stripString theme
    if t.length < cfg.min_theme_length ∨ t.length > cfg.max_theme_length then
      false
    else if t.toList.any
        (fun ch => ch.toNat < 32
          ∧ ¬ (ch = '\n' ∨ ch = Char.ofNat 13 ∨ ch = '\t')) then
      false
    else true

/-- `RequestManager.validate_generation_hour`. -/
def validateGenerationHour (hour : Int) : Bool :=
  hour ∈ validGenerationHours

/-- `RequestManager._get_user_request_for_date`. -/
def getUserRequestForDate (s : Storage) (uid date : String) (now : String) :
    Option RequestRec × Storage :=
  let g := getUserData s uid now
  (lookupA g.1.requests date, g.2)

/-- `RequestManager.submit_request`: validation, rate-limit gate,
same-day-duplicate rejection, then write of the new Pending request and the
rate-limiter event.  `reqId` stands for the generated `uuid.uuid4()`. -/
def submitRequest (cfg : Config) (s : Storage) (uid theme : String)
    (generationHour : Int) (affection : Option Int) (c : Clock)
    (reqId : String) : (Bool × String) × Storage :=
  if ¬ validateTheme cfg theme then
    ((false, "テーマは" ++ toString cfg.min_theme_length ++ "文字以上"
      ++ toString cfg.max_theme_length ++ "文字以下で入力してください"), s)
  else if ¬ validateGenerationHour generationHour then
    ((false, "生成時刻は[2, 3, 4]のいずれかを選択してください"), s)
  else
    let ra := isRequestAllowed cfg s uid c
    if ¬ ra.1.1 then ((false, ra.1.2), ra.2)
    else
      let ex := getUserRequestForDate ra.2 uid c.today c.now_iso
      match ex.1 with
      | some _ =>
          ((false, "本日は既にリクエストを送信済みです。1日1回までリクエスト可能です。"), ex.2)
      | none =>
          let requestData : RequestRec :=
            { theme := stripString theme
              status := "pending"
              requested_at := c.now_iso
              generation_hour := generationHour
              request_id := reqId
              affection := affection
              processed_at := none
              error_message := none }
          let g := getUserData ex.2 uid c.now_iso
          let ud' := { g.1 with
            requests := insertA g.1.requests c.today requestData }
          let s4 := updateUserData g.2 uid ud'
          let s5 := recordRequest s4 uid c
          ((true, "リクエストを受け付けました。" ++ toString generationHour
            ++ "時頃に手紙を生成します。"), s5)

/-- An element of the list returned by `get_pending_requests_by_hour`. -/
structure PendingReq where
  user_id : String
  theme : String
  requested_at : String
  generation_hour : Int
  request_id : String
  date : String
  deriving Repr, DecidableEq

/-- The per-user body of `get_pending_requests_by_hour`'s loop. -/
def pendingLoop (hour : Int) (c : Clock) (uids : List String) (s : Storage) :
    List PendingReq × Storage :=
  match uids with
  | [] => ([], s)
  | uid :: rest =>
      let g := getUserData s uid c.now_iso
      let items : List PendingReq :=
        match lookupA g.1.requests c.today with
        | some request =>
            if request.generation_hour = hour ∧ request.status = "pending" then
              [{ user_id := uid
                 theme := request.theme
                 requested_at := request.requested_at
                 generation_hour := request.generation_hour
                 request_id := request.request_id
                 date := c.today }]
            else []
        | none => []
      let r := pendingLoop hour c rest g.2
      (items ++ r.1, r.2)

/-- `RequestManager.get_pending_requests_by_hour`: scans all users' today's
request, keeping those with the given generation hour and status Pending. -/
def getPendingRequestsByHour (s : Storage) (hour : Int) (c : Clock) :
    List PendingReq × Storage :=
  if hour ∈ validGenerationHours then pendingLoop hour c (getAllUsers s) s
  else ([], s)

/-- `RequestManager.mark_request_processed`: sets the stored status to the
`status` argument (default `"completed"` at call sites) and stamps
`processed_at`; returns `False` when no request exists for the date. -/
def markRequestProcessed (s : Storage) (uid date status : String)
    (now : String) : Bool × Storage :=
  let g := getUserData s uid now
  let ud := g.1
  let s1 := g.2
  match lookupA ud.requests date with
  | none => (false, s1)
  | some request =>
      let request' := { request with status := status, processed_at := some now }
      let ud' := { ud with requests := insertA ud.requests date request' }
      (true, updateUserData s1 uid ud')

/-- `RequestManager.mark_request_failed`: sets status `"failed"`, stamps
`processed_at` and records the error message. -/
def markRequestFailed (s : Storage) (uid date errorMessage : String)
    (now : String) : Bool × Storage :=
  let g := getUserData s uid now
  let ud := g.1
  let s1 := g.2
  match lookupA ud.requests date with
  | none => (false, s1)
  | some request =>
      let request' :=
        { request with status := "failed", processed_at := some now
                       error_message := some errorMessage }
      let ud' := { ud with requests := insertA ud.requests date request' }
      (true, updateUserData s1 uid ud')

/-! ## User directory (`letter_user_manager.py`, `UserManager`) -/

/-- The profile view computed by `UserManager.get_user_profile`: a copy of
the stored profile plus derived statistics. -/
structure ProfileView where
  base : Profile
  total_requests : Nat
  completed_letters : Nat
  pending_requests : Nat
  deriving Repr, DecidableEq

/-- `UserManager.get_user_profile` (read path; creates the user lazily
through `get_user_data` like the source). -/
def getUserProfile (s : Storage) (uid : String) (c : Clock) :
    ProfileView × Storage :=
  let g := getUserData s uid c.now_iso
  ({ base := g.1.profile
     total_requests := g.1.requests.length
     completed_letters :=
       (g.1.letters.filter (fun p => p.2.status = "completed")).length
     pending_requests :=
       (g.1.requests.filter (fun p => p.2.status = "pending")).length },
    g.2)

/-- `UserManager.update_user_history` for the interaction dict the batch
pipeline passes (`{date, theme, status, generated_at}`: no `type`, `action`,
`details` or `session_id` keys, so the `.get` defaults apply and
`_update_profile_stats` only refreshes `last_activity`).  `entryId` stands
for the generated `uuid.uuid4()`. -/
def updateUserHistory (cfg : Config) (s : Storage) (uid : String) (c : Clock)
    (entryId : String) : Bool × Storage :=
  let g := getUserData s uid c.now_iso
  let ud := g.1
  let s1 := g.2
  let historyEntry : HistoryEntry :=
    { timestamp := c.now_iso, type := "unknown", action := ""
      session_id := "", entry_id := entryId }
  let newHistory := ud.history ++ [historyEntry]
  let newHistory :=
    if newHistory.length > cfg.max_history_entries then
      newHistory.drop (newHistory.length - cfg.max_history_entries)
    else newHistory
  let ud' :=
    { ud with history := newHistory
              profile := { ud.profile with last_activity := some c.now_iso } }
  (true, updateUserData s1 uid ud')

/-! ## Batch scheduler (`batch_scheduler.py`, `BatchScheduler`)

The two-stage LLM generation pipeline is an external collaborator; each
job's interaction with it is abstracted as a `JobOutcome`, exactly the
distinctions `_process_single_request` branches on. -/

/-- `BatchScheduler.available_hours`. -/
def availableHours : List Int := [2, 3, 4]

/-- Outcome of `await asyncio.wait_for(generate_letter(...), timeout)` for
one job: success with the generated content, `asyncio.TimeoutError`, a
caught in-job exception, or an exception escaping the task entirely (the
value `asyncio.gather(..., return_exceptions=True)` hands back). -/
inductive JobOutcome where
  | success (content : String) (generationTime : Nat)
  | timeout
  | exc (msg : String)
  | raised (msg : String)
  deriving Repr, DecidableEq

/-- The result dict of `_process_single_request` (`Option` fields model
keys present only on one path). -/
structure SingleResult where
  success : Bool
  user_id : String
  theme : Option String
  generation_time : Option Nat
  error : Option String
  deriving Repr, DecidableEq

/-- An element of the `errors` list aggregated by
`process_pending_requests_for_hour` (the infrastructure-failure entry has
only an `error` key). -/
structure BatchErrorEntry where
  request_index : Option Nat
  user_id : Option String
  error : String
  deriving Repr, DecidableEq

/-- The result dict of `process_pending_requests_for_hour`. -/
structure ProcessResult where
  processed_count : Nat
  success_count : Nat
  failed_count : Nat
  errors : List BatchErrorEntry
  deriving Repr, DecidableEq

/-- `BatchScheduler._save_generated_letter`: stores the letter under the
request's date, bumps `total_letters` and stamps `last_request`. -/
def saveGeneratedLetter (s : Storage) (uid date theme : String)
    (content : String) (generationTime : Nat) (c : Clock) : Storage :=
  let g := getUserData s uid c.now_iso
  let ud := g.1
  let s1 := g.2
  let letterData : LetterRec :=
    { theme := theme, content := content, status := "completed"
      generated_at := c.now_iso, generation_time := generationTime }
  let ud' :=
    { ud with
      letters := insertA ud.letters date letterData
      profile := { ud.profile with
                   total_letters := ud.profile.total_letters + 1
                   last_request := some date } }
  updateUserData s1 uid ud'

/-- `BatchScheduler._process_single_request`: fetch the user history, run
the generation with a timeout, then persist the letter and mark the request
Completed — or mark it Failed on timeout / exception.  A `raised` outcome
models an exception escaping the coroutine before any of its effects. -/
def processSingleRequest (cfg : Config) (outcome : JobOutcome) (s : Storage)
    (req : PendingReq) (c : Clock) (entryId : String) :
    Except String SingleResult × Storage :=
  match outcome with
  | .raised msg => (.error msg, s)
  | .success content generationTime =>
      let s1 := (getUserProfile s req.user_id c).2
      let s2 := saveGeneratedLetter s1 req.user_id req.date req.theme content
        generationTime c
      let s3 := (markRequestProcessed s2 req.user_id req.date "completed"
        c.now_iso).2
      let s4 := (updateUserHistory cfg s3 req.user_id c entryId).2
      (.ok { success := true, user_id := req.user_id, theme := some req.theme
             generation_time := some generationTime, error := none }, s4)
  | .timeout =>
      let s1 := (getUserProfile s req.user_id c).2
      let errorMsg := "手紙生成がタイムアウトしました（"
        ++ toString cfg.generation_timeout ++ "秒）"
      let s2 := (markRequestFailed s1 req.user_id req.date errorMsg
        c.now_iso).2
      (.ok { success := false, user_id := req.user_id, theme := none
             generation_time := none, error := some errorMsg }, s2)
  | .exc msg =>
      let s1 := (getUserProfile s req.user_id c).2
      let errorMsg := "手紙生成中にエラーが発生: " ++ msg
      let s2 := (markRequestFailed s1 req.user_id req.date errorMsg
        c.now_iso).2
      (.ok { success := false, user_id := req.user_id, theme := none
             generation_time := none, error := some errorMsg }, s2)

/-- The `asyncio.gather(*tasks, return_exceptions=True)` fan-out, as the
sequential linearization of the per-request jobs (jobs are launched in
discovery order; `gather` collects every job's result or exception without
cancelling siblings).  `gen i` is job `i`'s generation outcome and the
entry id of its history write. -/
def runJobs (cfg : Config) (gen : Nat → JobOutcome) (i : Nat)
    (reqs : List PendingReq) (s : Storage) (c : Clock) :
    List (Except String SingleResult) × Storage :=
  match reqs with
  | [] => ([], s)
  | req :: rest =>
      let p := processSingleRequest cfg (gen i) s req c
        ("entry-" ++ toString i)
      let r := runJobs cfg gen (i + 1) rest p.2 c
      (p.1 :: r.1, r.2)

/-- One step of the aggregation loop of
`process_pending_requests_for_hour`: an exception or a `success=False`
result counts as a failure and produces an error entry; a `success=True`
result counts as a success. -/
def aggStep (pending : List PendingReq)
    (acc : Nat × Nat × List BatchErrorEntry)
    (ri : Nat × Except String SingleResult) :
    Nat × Nat × List BatchErrorEntry :=
  match ri.2 with
  | .error e =>
      (acc.1, acc.2.1 + 1,
        acc.2.2 ++ [{ request_index := some ri.1
                      user_id := some (((pending.get? ri.1).map
                        (fun r => r.user_id)).getD "unknown")
                      error := "リクエスト処理例外: " ++ e }])
  | .ok r =>
      if r.success then (acc.1 + 1, acc.2.1, acc.2.2)
      else
        (acc.1, acc.2.1 + 1,
          acc.2.2 ++ [{ request_index := some ri.1
                        user_id := some (((pending.get? ri.1).map
                          (fun r => r.user_id)).getD "unknown")
                        error := (r.error).getD "不明なエラー" }])

/-- The aggregation loop of `process_pending_requests_for_hour` over the
indexed results. -/
def aggregateResults (pending : List PendingReq)
    (results : List (Except String SingleResult)) :
    Nat × Nat × List BatchErrorEntry :=
  results.enum.foldl (aggStep pending) (0, 0, [])

/-- `BatchScheduler.process_pending_requests_for_hour`.  `infra` injects an
exception escaping the discovery/fan-out itself (the outer `except` branch,
an infrastructure-level failure as opposed to a per-job one); `none` is the
normal path. -/
def processPendingRequestsForHour (cfg : Config) (gen : Nat → JobOutcome)
    (infra : Option String) (s : Storage) (hour : Int) (c : Clock) :
    ProcessResult × Storage :=
  match infra with
  | some msg =>
      ({ processed_count := 0, success_count := 0, failed_count := 0
         errors := [{ request_index := none, user_id := none
                      error := "未処理リクエスト処理中にエラーが発生: " ++ msg }] }, s)
  | none =>
      let disc := getPendingRequestsByHour s hour c
      let pendingRequests := disc.1
      if pendingRequests.isEmpty then
        ({ processed_count := 0, success_count := 0, failed_count := 0
           errors := [] }, disc.2)
      else
        let jr := runJobs cfg gen 0 pendingRequests disc.2 c
        let agg := aggregateResults pendingRequests jr.1
        ({ processed_count := pendingRequests.length
           success_count := agg.1
           failed_count := agg.2.1
           errors := agg.2.2 }, jr.2)

/-- `BatchScheduler._record_batch_start`: appends a Running batch-run
record to the system audit log. -/
def recordBatchStart (s : Storage) (batchId : String) (hour : Int)
    (c : Clock) : Storage :=
  let systemInfo := getSystemInfo s
  let rec0 : BatchRunRec :=
    { hour := hour, start_time := c.now_iso, status := "running"
      end_time := none, execution_time := none, processed_count := none
      success_count := none, failed_count := none, error_count := none
      error := none }
  { s with system :=
      { systemInfo with
        batch_runs := insertA systemInfo.batch_runs batchId rec0 } }

/-- `BatchScheduler._record_batch_completion`: updates the run record with
the aggregate counts (no-op when the start record is missing). -/
def recordBatchCompletion (s : Storage) (batchId : String)
    (result : ProcessResult) (c : Clock) : Storage :=
  let systemInfo := getSystemInfo s
  match lookupA systemInfo.batch_runs batchId with
  | none => s
  | some rec0 =>
      let rec1 :=
        { rec0 with
          end_time := some c.end_iso
          status := "completed"
          execution_time := some c.exec_seconds
          processed_count := some result.processed_count
          success_count := some result.success_count
          failed_count := some result.failed_count
          error_count := some result.errors.length }
      { s with system :=
          { systemInfo with
            batch_runs := insertA systemInfo.batch_runs batchId rec1 } }

/-- The result dict of `run_hourly_batch`.  `Option` fields model keys
present on some return paths only. -/
structure HourlyBatchResult where
  success : Bool
  error : Option String
  batch_id : String
  hour : Int
  start_time : String
  end_time : String
  execution_time : Option Nat
  processed_count : Option Nat
  success_count : Option Nat
  failed_count : Option Nat
  errors : Option (List BatchErrorEntry)
  deriving Repr, DecidableEq

/-- `BatchScheduler.run_hourly_batch`: validates the hour, records batch
start, processes the pending requests and records completion.  Outer
exceptions cannot arise in the pure model (every fallible sub-step already
catches internally), so the `except` return path is not reachable here; the
invalid-hour rejection path is. -/
def runHourlyBatch (cfg : Config) (gen : Nat → JobOutcome)
    (infra : Option String) (s : Storage) (hour : Int) (c : Clock) :
    HourlyBatchResult × Storage :=
  let batchId := c.stamp ++ "_" ++ toString hour
  if hour ∉ availableHours then
    ({ success := false
       error := some ("無効な時刻が指定されました: " ++ toString hour
         ++ "時 (有効: [2, 3, 4])")
       batch_id := batchId, hour := hour
       start_time := c.now_iso, end_time := c.end_iso
       execution_time := none, processed_count := none
       success_count := none, failed_count := none, errors := none }, s)
  else
    let s1 := recordBatchStart s batchId hour c
    let pr := processPendingRequestsForHour cfg gen infra s1 hour c
    let result := pr.1
    let s3 := recordBatchCompletion pr.2 batchId result c
    ({ success := true
       error := none
       batch_id := batchId, hour := hour
       start_time := c.now_iso, end_time := c.end_iso
       execution_time := some c.exec_seconds
       processed_count := some result.processed_count
       success_count := some result.success_count
       failed_count := some result.failed_count
       errors := some result.errors }, s3)

/-! ## Background runner (`background_processor.py`, `BackgroundProcessor`)

Python keeps two definitions of `start_background_processing` /
`stop_background_processing` in the class body; the later pair (lines
143–190) overrides the earlier one and is what runs.  The worker thread is
abstracted to its observable flags (`thread_alive`, and `joinTimedOut` for
the bounded `join`). -/

/-- The lifecycle flags of a `BackgroundProcessor`. -/
structure BGState where
  enable_background_processing : Bool
  is_running : Bool
  stop_event : Bool
  thread_alive : Bool
  deriving Repr, DecidableEq

/-- `BackgroundProcessor.start_background_processing` (effective,
second definition): refuses when disabled or already running; otherwise
clears the stop event and spawns the worker thread. -/
def startBackgroundProcessing (st : BGState) : Bool × BGState :=
  if ¬ st.enable_background_processing then (false, st)
  else if st.is_running then (false, st)
  else
    (true, { st with is_running := true, stop_event := false
                     thread_alive := true })

/-- `BackgroundProcessor.stop_background_processing` (effective, second
definition): a no-op returning `True` when not running; otherwise sets the
stop event and joins the thread with a bounded timeout — on join timeout it
returns `False` (leaving `is_running` set), else clears `is_running`. -/
def stopBackgroundProcessing (st : BGState) (joinTimedOut : Bool) :
    Bool × BGState :=
  if ¬ st.is_running then (true, st)
  else
    let st1 := { st with stop_event := true }
    if st1.thread_alive ∧ joinTimedOut then (false, st1)
    else (true, { st1 with is_running := false, thread_alive := false })

/-! ## File layer (`async_storage_manager.py`, persistence paths)

`_save_data_unsafe` / `load_data` / `_restore_from_backup` over an explicit
filesystem state.  The document payload is opaque at this layer (the JSON
dict), so the model is polymorphic in `Doc` with the repair pass
`_validate_and_repair_data` passed as a function. -/

/-- What a file on disk can hold: a well-formed serialized document,
malformed JSON, or zero bytes. -/
inductive FileContent (Doc : Type) where
  | valid (d : Doc)
  | corrupt
  | empty
  deriving Repr, DecidableEq

/-- A file in the `backup/` directory. -/
structure BackupFile (Doc : Type) where
  name : String
  mtime : Nat
  content : FileContent Doc
  deriving Repr, DecidableEq

/-- The filesystem as the store sees it: the primary document file, the
`.tmp` sibling, and the backup directory. -/
structure FS (Doc : Type) where
  primary : Option (FileContent Doc)
  temp : Option (FileContent Doc)
  backups : List (BackupFile Doc)
  deriving Repr, DecidableEq

/-- Fault injection for one `_save_data_unsafe` call: no fault, an I/O
error while writing the temp file (which may leave a partial temp file
behind), or a failure of the rename. -/
inductive SaveFault where
  | noFault
  | writeTempFail
  | moveFail
  deriving Repr, DecidableEq

/-- `AsyncStorageManager._save_data_unsafe`: validate, write the temp file,
atomically rename it over the destination; on any failure remove the temp
file and raise `StorageError` (modelled as `Except.error`). -/
def saveDataUnsafe {Doc : Type} (validate : Doc → Doc) (fs : FS Doc)
    (d : Doc) (fault : SaveFault) : Except String Unit × FS Doc :=
  let validatedData := validate d
  match fault with
  | .writeTempFail =>
      let fs1 := { fs with temp := some FileContent.corrupt }
      let fs2 := if fs1.temp.isSome then { fs1 with temp := none } else fs1
      (.error "データの保存に失敗しました", fs2)
  | .moveFail =>
      let fs1 := { fs with temp := some (FileContent.valid validatedData) }
      let fs2 := if fs1.temp.isSome then { fs1 with temp := none } else fs1
      (.error "データの保存に失敗しました", fs2)
  | .noFault =>
      let fs1 := { fs with temp := some (FileContent.valid validatedData) }
      (.ok (), { fs1 with primary := some (FileContent.valid validatedData)
                          temp := none })

/-- The glob pattern `backup/letters_backup_*.json`, as a check on the
file name's character list. -/
def matchesBackupGlob (name : String) : Bool :=
  "letters_backup_".toList.isPrefixOf name.toList
    && ".json".toList.isSuffixOf name.toList

/-- `max(backup_files, key=lambda p: p.stat().st_mtime)`: python's `max`
keeps the earliest element among ties. -/
def latestBackup {Doc : Type} (files : List (BackupFile Doc)) :
    Option (BackupFile Doc) :=
  files.foldl
    (fun acc b =>
      match acc with
      | none => some b
      | some a => if b.mtime > a.mtime then some b else some a)
    none

/-- `AsyncStorageManager._restore_from_backup`: pick the most recent
matching backup, persist and return its data; with no backups (or an
unreadable latest backup) persist and return the default document.
Saves on this recovery path carry no injected fault. -/
def restoreFromBackup {Doc : Type} (validate : Doc → Doc)
    (defaultData : Doc) (fs : FS Doc) : Doc × FS Doc :=
  let backupFiles := fs.backups.filter (fun b => matchesBackupGlob b.name)
  match latestBackup backupFiles with
  | none =>
      let (_, fs1) := saveDataUnsafe validate fs defaultData .noFault
      (defaultData, fs1)
  | some latest =>
      match latest.content with
      | .valid data =>
          let (_, fs1) := saveDataUnsafe validate fs data .noFault
          (data, fs1)
      | _ =>
          let (_, fs1) := saveDataUnsafe validate fs defaultData .noFault
          (defaultData, fs1)

/-- `AsyncStorageManager.load_data`: missing or empty file → persist and
return the default document; malformed JSON → recover from backup; valid
file → return the repaired parse. -/
def loadData {Doc : Type} (validate : Doc → Doc) (defaultData : Doc)
    (fs : FS Doc) : Doc × FS Doc :=
  match fs.primary with
  | none =>
      let (_, fs1) := saveDataUnsafe validate fs defaultData .noFault
      (defaultData, fs1)
  | some FileContent.empty =>
      let (_, fs1) := saveDataUnsafe validate fs defaultData .noFault
      (defaultData, fs1)
  | some FileContent.corrupt => restoreFromBackup validate defaultData fs
  | some (FileContent.valid data) => (validate data, fs)

/-! ## Theorems -/

/-- C2: for every user, if the underlying storage raises an exception while
a limit counter is being read during a limit check (either the daily-request
read or the API-call read), then `is_request_allowed` returns
`(false, message)`; it never returns `(true, ...)` — fail-closed, never
fail-open. -/
theorem is_request_allowed_fail_closed (cfg : Config) (c : Clock)
    (read1 read2 : Except String UserData) (e : String)
    (h : read1 = Except.error e ∨ read2 = Except.error e) :
    (isRequestAllowedRead cfg c read1 read2).1 = false := by
  rcases h with h1 | h2
  · subst h1
    simp [isRequestAllowedRead, checkDailyRequestLimitRead]
  · subst h2
    unfold isRequestAllowedRead
    cases hd : checkDailyRequestLimitRead cfg c read1 with
    | mk allowed info =>
      by_cases ha : allowed = true
      · subst ha
        simp [checkApiCallLimitRead]
      · have : allowed = false := by
          cases allowed
          · rfl
          · exact absurd rfl ha
        subst this
        simp

theorem is_request_allowed_fail_closed_witness :
    (isRequestAllowedRead defaultConfig
      { today := "2025-01-01", now_iso := "2025-01-01T10:00:00"
        stamp := "20250101_100000", secs_to_midnight := 50400
        next_reset_iso := "2025-01-02T00:00:00", exec_seconds := 0
        end_iso := "2025-01-01T10:00:00" }
      (Except.error "disk read failed")
      (Except.ok (defaultUserData "2025-01-01T10:00:00"))).1 = false :=
  is_request_allowed_fail_closed defaultConfig _ _ _ "disk read failed"
    (Or.inl rfl)

/-- C9: with background processing enabled, starting the runner when it is
already running is a no-op returning `false`, stopping it when it is not
running is a no-op returning `true`, and the lifecycle flag only moves
Stopped → Running (on a successful start) → Stopped (on a successful
stop): start never stops a running runner, stop never starts a stopped
one. -/
theorem background_runner_state_machine (st : BGState) (joinTimedOut : Bool) :
    (st.is_running = true → startBackgroundProcessing st = (false, st))
  ∧ (st.is_running = false →
      stopBackgroundProcessing st joinTimedOut = (true, st))
  ∧ (st.is_running = true →
      (startBackgroundProcessing st).2.is_running = true)
  ∧ ((startBackgroundProcessing st).1 = true →
      (startBackgroundProcessing st).2.is_running = true)
  ∧ (st.is_running = true → (stopBackgroundProcessing st joinTimedOut).1 = true →
      (stopBackgroundProcessing st joinTimedOut).2.is_running = false) := by
  refine ⟨?_, ?_, ?_, ?_, ?_⟩
  · intro h
    unfold startBackgroundProcessing
    by_cases he : st.enable_background_processing = true
    · simp [he, h]
    · simp [he]
  · intro h
    unfold stopBackgroundProcessing
    simp [h]
  · intro h
    unfold startBackgroundProcessing
    by_cases he : st.enable_background_processing = true
    · simp [he, h]
    · simp [he, h]
  · intro h
    unfold startBackgroundProcessing at h ⊢
    by_cases he : st.enable_background_processing = true
    · by_cases hr : st.is_running = true
      · simp [he, hr] at h
      · simp [he, hr]
    · simp [he] at h
  · intro hr hstop
    unfold stopBackgroundProcessing at hstop ⊢
    by_cases hj : st.thread_alive = true ∧ joinTimedOut = true
    · simp [hr, hj] at hstop
    · simp [hr, hj]

theorem background_runner_state_machine_witness :
    let st : BGState :=
      { enable_background_processing := true, is_running := true
        stop_event := false, thread_alive := true }
    startBackgroundProcessing st = (false, st)
      ∧ stopBackgroundProcessing { st with is_running := false
                                           thread_alive := false } false
        = (true, { st with is_running := false, thread_alive := false }) :=
  ⟨(background_runner_state_machine _ false).1 rfl,
   (background_runner_state_machine _ false).2.1 rfl⟩

/-- C6: every save serializes to a temp file in the same directory and
atomically renames it over the destination; when no step fails the primary
holds exactly the (repaired) document; when any step fails the temp file is
removed, a `StorageError` is raised and the primary file is left exactly as
it was — never corrupt or partially written. -/
theorem save_data_atomic {Doc : Type} (validate : Doc → Doc) (fs : FS Doc)
    (d : Doc) (fault : SaveFault) :
    ((saveDataUnsafe validate fs d fault).2.temp = none)
  ∧ (fault = SaveFault.noFault →
      (saveDataUnsafe validate fs d fault).1 = Except.ok ()
      ∧ (saveDataUnsafe validate fs d fault).2.primary
          = some (FileContent.valid (validate d)))
  ∧ (fault ≠ SaveFault.noFault →
      (saveDataUnsafe validate fs d fault).1
          = Except.error "データの保存に失敗しました"
      ∧ (saveDataUnsafe validate fs d fault).2.primary = fs.primary) := by
  cases fault <;> simp [saveDataUnsafe]

theorem save_data_atomic_witness :
    let fs : FS Nat :=
      { primary := some (FileContent.valid 7), temp := none, backups := [] }
    ((saveDataUnsafe id fs 9 SaveFault.moveFail).1
        = Except.error "データの保存に失敗しました")
      ∧ (saveDataUnsafe id fs 9 SaveFault.moveFail).2.primary
          = some (FileContent.valid 7)
      ∧ (saveDataUnsafe id fs 9 SaveFault.moveFail).2.temp = none
      ∧ (saveDataUnsafe id fs 9 SaveFault.noFault).2.primary
          = some (FileContent.valid 9) := by
  refine ⟨?_, ?_, ?_, ?_⟩
  · exact ((save_data_atomic id _ 9 SaveFault.moveFail).2.2 (by decide)).1
  · exact ((save_data_atomic id _ 9 SaveFault.moveFail).2.2 (by decide)).2
  · exact (save_data_atomic id _ 9 SaveFault.moveFail).1
  · exact ((save_data_atomic id _ 9 SaveFault.noFault).2.1 rfl).2

theorem latestBackup_go {Doc : Type} :
    ∀ (files : List (BackupFile Doc)) (acc : Option (BackupFile Doc))
      (b : BackupFile Doc),
      files.foldl
        (fun acc x =>
          match acc with
          | none => some x
          | some a => if x.mtime > a.mtime then some x else some a) acc
        = some b →
      (acc = some b ∨ b ∈ files)
        ∧ (∀ a, acc = some a → a.mtime ≤ b.mtime)
        ∧ (∀ x ∈ files, x.mtime ≤ b.mtime) := by
  intro files
  induction files with
  | nil =>
      intro acc b h
      simp only [List.foldl_nil] at h
      exact ⟨Or.inl h, fun a ha => by rw [ha] at h; cases h; exact le_refl _,
        fun x hx => absurd hx (List.not_mem_nil x)⟩
  | cons f rest ih =>
      intro acc b h
      simp only [List.foldl_cons] at h
      cases acc with
      | none =>
          obtain ⟨hmem, hacc, hall⟩ := ih (some f) b h
          refine ⟨?_, ?_, ?_⟩
          · rcases hmem with hf | hr
            · cases hf; exact Or.inr (List.mem_cons_self _ _)
            · exact Or.inr (List.mem_cons_of_mem _ hr)
          · intro a ha; cases ha
          · intro x hx
            rcases List.mem_cons.mp hx with hx | hx
            · rw [hx]; exact hacc f rfl
            · exact hall x hx
      | some a =>
          by_cases hgt : f.mtime > a.mtime
          · simp only [hgt, if_pos] at h
            obtain ⟨hmem, hacc, hall⟩ := ih (some f) b h
            refine ⟨?_, ?_, ?_⟩
            · rcases hmem with hf | hr
              · cases hf; exact Or.inr (List.mem_cons_self _ _)
              · exact Or.inr (List.mem_cons_of_mem _ hr)
            · intro a' ha'
              cases ha'
              exact le_trans (le_of_lt hgt) (hacc f rfl)
            · intro x hx
              rcases List.mem_cons.mp hx with hx | hx
              · rw [hx]; exact hacc f rfl
              · exact hall x hx
          · simp only [hgt, if_neg, not_false_eq_true] at h
            obtain ⟨hmem, hacc, hall⟩ := ih (some a) b h
            refine ⟨?_, ?_, ?_⟩
            · rcases hmem with hf | hr
              · exact Or.inl hf
              · exact Or.inr (List.mem_cons_of_mem _ hr)
            · intro a' ha'
              cases ha'
              exact hacc a rfl
            · intro x hx
              rcases List.mem_cons.mp hx with hx | hx
              · subst hx
                exact le_trans (le_of_not_lt hgt) (hacc a rfl)
              · exact hall x hx

theorem latestBackup_spec {Doc : Type} (files : List (BackupFile Doc))
    (b : BackupFile Doc) (h : latestBackup files = some b) :
    b ∈ files ∧ ∀ x ∈ files, x.mtime ≤ b.mtime := by
  obtain ⟨hmem, _, hall⟩ := latestBackup_go files none b h
  refine ⟨?_, hall⟩
  rcases hmem with hc | hm
  · cases hc
  · exact hm

/-- C7: on a corrupt (malformed-JSON) primary file, `load()` recovers from
the most recent backup (by modification time) among files matching the
store's `letters_backup_*.json` naming convention, persists the recovered
data as the new primary and returns it; with no matching backup it persists
and returns the default document instead of raising. -/
theorem load_data_recovers {Doc : Type} (validate : Doc → Doc)
    (defaultData : Doc) (fs : FS Doc)
    (hcorrupt : fs.primary = some FileContent.corrupt) :
    (fs.backups.filter (fun b => matchesBackupGlob b.name) = [] →
      (loadData validate defaultData fs).1 = defaultData
        ∧ (loadData validate defaultData fs).2.primary
            = some (FileContent.valid (validate defaultData)))
  ∧ (∀ latest d,
      latestBackup (fs.backups.filter (fun b => matchesBackupGlob b.name))
          = some latest →
      latest.content = FileContent.valid d →
      (loadData validate defaultData fs).1 = d
        ∧ (loadData validate defaultData fs).2.primary
            = some (FileContent.valid (validate d))
        ∧ latest ∈ fs.backups.filter (fun b => matchesBackupGlob b.name)
        ∧ ∀ b ∈ fs.backups.filter (fun b => matchesBackupGlob b.name),
            b.mtime ≤ latest.mtime) := by
  have hload : loadData validate defaultData fs
      = restoreFromBackup validate defaultData fs := by
    unfold loadData
    rw [hcorrupt]
  constructor
  · intro hempty
    rw [hload]
    simp only [restoreFromBackup]
    rw [hempty]
    exact ⟨rfl, rfl⟩
  · intro latest d hlatest hvalid
    obtain ⟨hmem, hall⟩ := latestBackup_spec _ _ hlatest
    obtain ⟨nm, mt, ct⟩ := latest
    have hct : ct = FileContent.valid d := hvalid
    subst hct
    have hres : restoreFromBackup validate defaultData fs
        = (d, (saveDataUnsafe validate fs d SaveFault.noFault).2) := by
      simp only [restoreFromBackup]
      rw [hlatest]
    rw [hload, hres]
    exact ⟨rfl, rfl, hmem, hall⟩

theorem load_data_recovers_witness :
    let fs : FS Nat :=
      { primary := some FileContent.corrupt
        temp := none
        backups :=
          [{ name := "letters_backup_20250101.json", mtime := 10
             content := FileContent.valid 7 },
           { name := "notes.txt", mtime := 99
             content := FileContent.valid 0 },
           { name := "letters_backup_20250102.json", mtime := 20
             content := FileContent.valid 42 }] }
    (loadData id 0 fs).1 = 42
      ∧ (loadData id 0 fs).2.primary = some (FileContent.valid 42) := by
  have h := (load_data_recovers id 0
    { primary := some FileContent.corrupt
      temp := none
      backups :=
        [{ name := "letters_backup_20250101.json", mtime := 10
           content := FileContent.valid 7 },
         { name := "notes.txt", mtime := 99
           content := FileContent.valid 0 },
         { name := "letters_backup_20250102.json", mtime := 20
           content := FileContent.valid 42 }] } rfl).2
    { name := "letters_backup_20250102.json", mtime := 20
      content := FileContent.valid 42 } 42 (by decide) rfl
  exact ⟨h.1, h.2.1⟩

/-- A request record already in the terminal Completed state. -/
def completedRequest : RequestRec :=
  { theme := "spring", status := "completed"
    requested_at := "2025-01-01T08:00:00", generation_hour := 2
    request_id := "r1", affection := none
    processed_at := some "2025-01-01T02:05:00", error_message := none }

/-- A user holding `completedRequest` for 2025-01-01. -/
def sampleUser : UserData :=
  { defaultUserData "2025-01-01T00:00:00" with
    requests := [("2025-01-01", completedRequest)] }

/-- A store with that single user. -/
def sampleStorage : Storage :=
  { users := [("u1", sampleUser)]
    system := { last_backup := none, batch_runs := []
                created_at := "2025-01-01T00:00:00" } }

/-- C3 counterexample: a Request whose status already transitioned to
Completed is flipped to the other terminal state Failed by a later
`mark_request_failed` call — the transition is not one-way in the code,
refuting the claim at this concrete input. -/
theorem mark_request_status_reverts_cex :
    (((lookupA sampleStorage.users "u1").bind
        (fun ud => lookupA ud.requests "2025-01-01")).map
          (fun q => q.status) = some "completed")
  ∧ ((markRequestFailed sampleStorage "u1" "2025-01-01" "boom"
        "2025-01-02T00:00:00").1 = true)
  ∧ (((lookupA (markRequestFailed sampleStorage "u1" "2025-01-01" "boom"
          "2025-01-02T00:00:00").2.users "u1").bind
        (fun ud => lookupA ud.requests "2025-01-01")).map
          (fun q => q.status) = some "failed") := by
  decide

/-- C3 (amended): `mark_request_processed` and `mark_request_failed`
overwrite the stored status unconditionally — whenever a request exists for
the date, `mark_request_processed` sets its status to the `status` argument
and `mark_request_failed` sets it to Failed, whatever the current status
(in particular a Completed request can be flipped to Failed or back to
Pending); the one-shot transition is a calling discipline of the batch
pipeline, not enforced by these operations. -/
theorem mark_operations_overwrite_status (s : Storage)
    (uid date status errMsg now : String) (ud : UserData) (req : RequestRec)
    (hud : lookupA s.users uid = some ud)
    (hreq : lookupA ud.requests date = some req) :
    ((markRequestProcessed s uid date status now).1 = true
      ∧ ((lookupA (markRequestProcessed s uid date status now).2.users
            uid).bind (fun u => lookupA u.requests date)).map
              (fun q => q.status) = some status)
  ∧ ((markRequestFailed s uid date errMsg now).1 = true
      ∧ ((lookupA (markRequestFailed s uid date errMsg now).2.users
            uid).bind (fun u => lookupA u.requests date)).map
              (fun q => q.status) = some "failed") := by
  have hg := getUserData_mem s uid now ud hud
  constructor
  · simp only [markRequestProcessed, hg, hreq]
    simp [updateUserData_self, lookupA_insertA_self]
  · simp only [markRequestFailed, hg, hreq]
    simp [updateUserData_self, lookupA_insertA_self]

theorem mark_operations_overwrite_status_witness :
    (markRequestProcessed sampleStorage "u1" "2025-01-01" "pending"
        "2025-01-02T00:00:00").1 = true
  ∧ ((lookupA (markRequestProcessed sampleStorage "u1" "2025-01-01"
        "pending" "2025-01-02T00:00:00").2.users "u1").bind
          (fun u => lookupA u.requests "2025-01-01")).map
            (fun q => q.status) = some "pending" :=
  (mark_operations_overwrite_status sampleStorage "u1" "2025-01-01"
    "pending" "boom" "2025-01-02T00:00:00" sampleUser completedRequest
    rfl rfl).1

/-- A clock for concrete evaluations: 02:00 on 2025-01-01. -/
def sampleClock : Clock :=
  { today := "2025-01-01", now_iso := "2025-01-01T02:00:00"
    stamp := "20250101_020000", secs_to_midnight := 79200
    next_reset_iso := "2025-01-02T00:00:00", exec_seconds := 1
    end_iso := "2025-01-01T02:00:01" }

/-- C8 counterexample: `run_hourly_batch(5)` (an invalid hour) returns a
result without the `execution_time`, `processed_count`, `success_count`,
`failed_count` and `errors` keys, so the returned object does not always
contain all ten keys of the documented contract. -/
theorem run_hourly_batch_missing_keys_cex :
    ((runHourlyBatch defaultConfig (fun _ => JobOutcome.timeout) none
        sampleStorage 5 sampleClock).1.execution_time = none)
  ∧ ((runHourlyBatch defaultConfig (fun _ => JobOutcome.timeout) none
        sampleStorage 5 sampleClock).1.processed_count = none)
  ∧ ((runHourlyBatch defaultConfig (fun _ => JobOutcome.timeout) none
        sampleStorage 5 sampleClock).1.success_count = none)
  ∧ ((runHourlyBatch defaultConfig (fun _ => JobOutcome.timeout) none
        sampleStorage 5 sampleClock).1.failed_count = none)
  ∧ ((runHourlyBatch defaultConfig (fun _ => JobOutcome.timeout) none
        sampleStorage 5 sampleClock).1.errors = none) := by
  decide

/-- C8 (amended): the result of `run_hourly_batch` always contains
`success`, `batch_id`, `hour`, `start_time` and `end_time`; on the normal
path (a valid hour) it additionally contains `execution_time`,
`processed_count`, `success_count`, `failed_count` and `errors` — the full
documented key set — while the invalid-hour rejection path returns only the
five always-present keys plus `error`, omitting the counts, the error list
and `execution_time`. -/
theorem run_hourly_batch_result_keys (cfg : Config) (gen : Nat → JobOutcome)
    (infra : Option String) (s : Storage) (hour : Int) (c : Clock) :
    (hour ∈ availableHours →
      (runHourlyBatch cfg gen infra s hour c).1.success = true
      ∧ (runHourlyBatch cfg gen infra s hour c).1.error = none
      ∧ (runHourlyBatch cfg gen infra s hour c).1.execution_time.isSome
      ∧ (runHourlyBatch cfg gen infra s hour c).1.processed_count.isSome
      ∧ (runHourlyBatch cfg gen infra s hour c).1.success_count.isSome
      ∧ (runHourlyBatch cfg gen infra s hour c).1.failed_count.isSome
      ∧ (runHourlyBatch cfg gen infra s hour c).1.errors.isSome)
  ∧ (hour ∉ availableHours →
      (runHourlyBatch cfg gen infra s hour c).1.success = false
      ∧ (runHourlyBatch cfg gen infra s hour c).1.error.isSome
      ∧ (runHourlyBatch cfg gen infra s hour c).1.execution_time = none
      ∧ (runHourlyBatch cfg gen infra s hour c).1.processed_count = none
      ∧ (runHourlyBatch cfg gen infra s hour c).1.success_count = none
      ∧ (runHourlyBatch cfg gen infra s hour c).1.failed_count = none
      ∧ (runHourlyBatch cfg gen infra s hour c).1.errors = none) := by
  by_cases h : hour ∈ availableHours
  · constructor
    · intro _
      simp [runHourlyBatch, h]
    · intro hn
      exact absurd h hn
  · constructor
    · intro hmem
      exact absurd hmem h
    · intro _
      simp [runHourlyBatch, h]

theorem run_hourly_batch_result_keys_witness :
    (runHourlyBatch defaultConfig (fun _ => JobOutcome.timeout) none
        sampleStorage 2 sampleClock).1.success = true
  ∧ (runHourlyBatch defaultConfig (fun _ => JobOutcome.timeout) none
        sampleStorage 2 sampleClock).1.processed_count.isSome :=
  ⟨((run_hourly_batch_result_keys defaultConfig (fun _ => JobOutcome.timeout)
      none sampleStorage 2 sampleClock).1 (by decide)).1,
   ((run_hourly_batch_result_keys defaultConfig (fun _ => JobOutcome.timeout)
      none sampleStorage 2 sampleClock).1 (by decide)).2.2.2.1⟩

theorem runJobs_length (cfg : Config) (gen : Nat → JobOutcome) (c : Clock) :
    ∀ (reqs : List PendingReq) (i : Nat) (s : Storage),
      (runJobs cfg gen i reqs s c).1.length = reqs.length := by
  intro reqs
  induction reqs with
  | nil => intro i s; rfl
  | cons r rest ih =>
      intro i s
      simp only [runJobs, List.length_cons]
      rw [ih]

theorem aggStep_sum (pending : List PendingReq) :
    ∀ (l : List (Nat × Except String SingleResult))
      (acc : Nat × Nat × List BatchErrorEntry),
      (l.foldl (aggStep pending) acc).1 + (l.foldl (aggStep pending) acc).2.1
        = acc.1 + acc.2.1 + l.length := by
  intro l
  induction l with
  | nil => intro acc; simp
  | cons x rest ih =>
      intro acc
      rw [List.foldl_cons, ih]
      have hstep : (aggStep pending acc x).1 + (aggStep pending acc x).2.1
          = acc.1 + acc.2.1 + 1 := by
        unfold aggStep
        match x.2 with
        | .error e => simp; omega
        | .ok r =>
            by_cases hs : r.success = true
            · simp [hs]; omega
            · simp [hs]; omega
      rw [hstep]
      simp [List.length_cons]
      omega

theorem aggregateResults_sum (pending : List PendingReq)
    (results : List (Except String SingleResult)) :
    (aggregateResults pending results).1
      + (aggregateResults pending results).2.1 = results.length := by
  unfold aggregateResults
  rw [aggStep_sum pending results.enum (0, 0, [])]
  simp

/-- C10: on every path of `process_pending_requests_for_hour` — no pending
requests, a normal fan-out, or an infrastructure-level exception — the
returned counts satisfy `processed_count = success_count + failed_count`. -/
theorem process_counts_add_up (cfg : Config) (gen : Nat → JobOutcome)
    (infra : Option String) (s : Storage) (hour : Int) (c : Clock) :
    (processPendingRequestsForHour cfg gen infra s hour c).1.processed_count
      = (processPendingRequestsForHour cfg gen infra s hour c).1.success_count
        + (processPendingRequestsForHour cfg gen infra s hour c).1.failed_count
    := by
  unfold processPendingRequestsForHour
  match infra with
  | some msg => rfl
  | none =>
      by_cases hp : (getPendingRequestsByHour s hour c).1.isEmpty
      · simp [hp]
      · simp only [hp, Bool.false_eq_true, if_false]
        have hsum := aggregateResults_sum (getPendingRequestsByHour s hour c).1
          (runJobs cfg gen 0 (getPendingRequestsByHour s hour c).1
            (getPendingRequestsByHour s hour c).2 c).1
        rw [runJobs_length] at hsum
        exact hsum.symm

/-- A store with no users yet. -/
def emptyStorage : Storage :=
  { users := []
    system := { last_backup := none, batch_runs := []
                created_at := "2025-01-01T00:00:00" } }

theorem isRequestAllowed_state (cfg : Config) (s : Storage) (uid : String)
    (c : Clock) (ud : UserData) (hud : lookupA s.users uid = some ud) :
    (isRequestAllowed cfg s uid c).2 = s := by
  have hg := getUserData_mem s uid c.now_iso ud hud
  simp only [isRequestAllowed, checkDailyRequestLimit, checkApiCallLimit, hg]
  by_cases h1 : (checkDailyRequestLimitRead cfg c (Except.ok ud)).1 = true
  · by_cases h2 : (checkApiCallLimitRead cfg c (Except.ok ud)).1 = true
    · simp [h1, h2]
    · simp [h1, h2]
  · simp [h1]

theorem recordRequest_eq (s : Storage) (uid : String) (c : Clock)
    (ud : UserData) (hud : lookupA s.users uid = some ud) :
    recordRequest s uid c
      = updateUserData s uid
          { ud with
            rate_limits :=
              { ud.rate_limits with
                daily_requests :=
                  insertA ud.rate_limits.daily_requests c.today
                    ((lookupA ud.rate_limits.daily_requests c.today).getD 0
                      + 1) }
            profile := { ud.profile with last_request := some c.today } } := by
  simp only [recordRequest, getUserData_mem s uid c.now_iso ud hud]

theorem submitRequest_success_shape (cfg : Config) (s : Storage)
    (uid theme : String) (hour : Int) (aff : Option Int) (c : Clock)
    (reqId : String)
    (h : (submitRequest cfg s uid theme hour aff c reqId).1.1 = true) :
    ∃ ud', lookupA (submitRequest cfg s uid theme hour aff c reqId).2.users uid
        = some ud'
      ∧ lookupA ud'.requests c.today = some
          { theme := stripString theme, status := "pending"
            requested_at := c.now_iso, generation_hour := hour
            request_id := reqId, affection := aff
            processed_at := none, error_message := none }
      ∧ countKey ud'.requests c.today = 1 := by
  unfold submitRequest at h ⊢
  by_cases hv : validateTheme cfg theme = true
  · simp only [hv, not_true_eq_false, if_false] at h ⊢
    by_cases hh : validateGenerationHour hour = true
    · simp only [hh, not_true_eq_false, if_false] at h ⊢
      by_cases ha : (isRequestAllowed cfg s uid c).1.1 = true
      · simp only [ha, not_true_eq_false, if_false] at h ⊢
        cases hex : (getUserRequestForDate (isRequestAllowed cfg s uid c).2
            uid c.today c.now_iso).1 with
        | some r => rw [hex] at h; simp at h
        | none =>
            rw [hex] at h
            dsimp only at h ⊢
            set s2 := (getUserRequestForDate (isRequestAllowed cfg s uid c).2
              uid c.today c.now_iso).2 with hs2
            set g := getUserData s2 uid c.now_iso with hgdef
            set requestData : RequestRec :=
              { theme := stripString theme, status := "pending"
                requested_at := c.now_iso, generation_hour := hour
                request_id := reqId, affection := aff
                processed_at := none, error_message := none } with hrd
            set ud' : UserData :=
              { g.1 with requests := insertA g.1.requests c.today requestData }
              with hud'
            have hself : lookupA (updateUserData g.2 uid ud').users uid
                = some ud' := updateUserData_self g.2 uid ud'
            have hrec := recordRequest_eq (updateUserData g.2 uid ud') uid c
              ud' hself
            refine ⟨{ ud' with
                rate_limits :=
                  { ud'.rate_limits with
                    daily_requests :=
                      insertA ud'.rate_limits.daily_requests c.today
                        ((lookupA ud'.rate_limits.daily_requests
                          c.today).getD 0 + 1) }
                profile :=
                  { ud'.profile with last_request := some c.today } },
              ?_, ?_, ?_⟩
            · rw [hrec]
              exact updateUserData_self _ uid _
            · exact lookupA_insertA_self _ _ _
            · exact countKey_insertA_self _ _ _
      · simp only [ha] at h
        simp at h
    · simp [hh] at h
  · simp [hv] at h

theorem submitRequest_second (cfg : Config) (s : Storage) (uid theme : String)
    (hour : Int) (aff : Option Int) (c : Clock) (reqId : String)
    (ud : UserData) (hud : lookupA s.users uid = some ud)
    (hreq : (lookupA ud.requests c.today).isSome = true) :
    (submitRequest cfg s uid theme hour aff c reqId).1.1 = false
    ∧ (submitRequest cfg s uid theme hour aff c reqId).2 = s := by
  unfold submitRequest
  by_cases hv : validateTheme cfg theme = true
  · simp only [hv, not_true_eq_false, if_false]
    by_cases hh : validateGenerationHour hour = true
    · simp only [hh, not_true_eq_false, if_false]
      have hstate := isRequestAllowed_state cfg s uid c ud hud
      by_cases ha : (isRequestAllowed cfg s uid c).1.1 = true
      · simp only [ha, not_true_eq_false, if_false]
        have hget : getUserRequestForDate (isRequestAllowed cfg s uid c).2
            uid c.today c.now_iso = (lookupA ud.requests c.today, s) := by
          rw [hstate]
          simp only [getUserRequestForDate,
            getUserData_mem s uid c.now_iso ud hud]
        rw [hget]
        cases hsome : lookupA ud.requests c.today with
        | none => rw [hsome] at hreq; simp at hreq
        | some r => simp
      · simp only [ha]
        simp [hstate]
    · simp [hh]
  · simp [hv]

/-- C1: for every user U and day D, when a first `submit_request` on day D
succeeds, a second call for U on the same day returns `success=false` with
a rejection message and leaves the store exactly as it was: exactly one
Request record is stored for (U, D), namely the one the first call wrote —
it is not overwritten. -/
theorem submit_request_at_most_once_per_day (cfg : Config) (s0 : Storage)
    (uid theme1 theme2 : String) (hour1 hour2 : Int) (aff1 aff2 : Option Int)
    (c : Clock) (id1 id2 : String)
    (h1 : (submitRequest cfg s0 uid theme1 hour1 aff1 c id1).1.1 = true) :
    (submitRequest cfg (submitRequest cfg s0 uid theme1 hour1 aff1 c id1).2
        uid theme2 hour2 aff2 c id2).1.1 = false
  ∧ (submitRequest cfg (submitRequest cfg s0 uid theme1 hour1 aff1 c id1).2
        uid theme2 hour2 aff2 c id2).2
      = (submitRequest cfg s0 uid theme1 hour1 aff1 c id1).2
  ∧ ∃ ud, lookupA
        (submitRequest cfg s0 uid theme1 hour1 aff1 c id1).2.users uid
        = some ud
      ∧ lookupA ud.requests c.today = some
          { theme := stripString theme1, status := "pending"
            requested_at := c.now_iso, generation_hour := hour1
            request_id := id1, affection := aff1
            processed_at := none, error_message := none }
      ∧ countKey ud.requests c.today = 1 := by
  obtain ⟨ud, hud, hr, hcount⟩ :=
    submitRequest_success_shape cfg s0 uid theme1 hour1 aff1 c id1 h1
  have hsecond := submitRequest_second cfg
    (submitRequest cfg s0 uid theme1 hour1 aff1 c id1).2 uid theme2 hour2
    aff2 c id2 ud hud (by rw [hr]; rfl)
  exact ⟨hsecond.1, hsecond.2, ud, hud, hr, hcount⟩

theorem submit_request_at_most_once_per_day_witness :
    (submitRequest defaultConfig
        (submitRequest defaultConfig emptyStorage "u1" "春の思い出" 2 none
          sampleClock "id1").2
        "u1" "夏の思い出" 3 none sampleClock "id2").1.1 = false :=
  (submit_request_at_most_once_per_day defaultConfig emptyStorage "u1"
    "春の思い出" "夏の思い出" 2 3 none none sampleClock "id1" "id2"
    (by decide)).1

/-! ## Discovery characterization and key-set lemmas (for the batch claims) -/

theorem lookupA_isSome_of_mem_keys {α : Type} (l : List (String × α))
    (k : String) (h : k ∈ l.map (fun p => p.1)) :
    (lookupA l k).isSome = true := by
  induction l with
  | nil => simp at h
  | cons p rest ih =>
      by_cases hq : p.1 = k
      · have hb : (p.1 == k) = true := by simp [hq]
        simp [lookupA, List.find?_cons, hb]
      · have hb : (p.1 == k) = false := by simp [hq]
        have hr : k ∈ rest.map (fun p => p.1) := by
          rw [List.map_cons, List.mem_cons] at h
          rcases h with h1 | h2
          · exact absurd h1.symm hq
          · exact h2
        have hrest := ih hr
        rw [lookupA] at hrest ⊢
        simp only [List.find?_cons, hb]
        exact hrest

theorem mem_keys_of_lookupA_isSome {α : Type} (l : List (String × α))
    (k : String) (h : (lookupA l k).isSome = true) :
    k ∈ l.map (fun p => p.1) := by
  induction l with
  | nil => simp [lookupA] at h
  | cons p rest ih =>
      by_cases hq : p.1 = k
      · rw [List.map_cons]
        exact List.mem_cons.mpr (Or.inl hq.symm)
      · have hb : (p.1 == k) = false := by simp [hq]
        rw [lookupA] at h
        simp only [List.find?_cons, hb] at h
        have hrest := ih (by rw [lookupA]; exact h)
        rw [List.map_cons]
        exact List.mem_cons.mpr (Or.inr hrest)

/-- The per-user test of `get_pending_requests_by_hour`, as a function of
the users table: the entry contributed by one user, if any. -/
def pendingOf (users : List (String × UserData)) (hour : Int)
    (today : String) (uid : String) : Option PendingReq :=
  match lookupA users uid with
  | none => none
  | some ud =>
      match lookupA ud.requests today with
      | none => none
      | some request =>
          if request.generation_hour = hour ∧ request.status = "pending" then
            some { user_id := uid
                   theme := request.theme
                   requested_at := request.requested_at
                   generation_hour := request.generation_hour
                   request_id := request.request_id
                   date := today }
          else none

theorem pendingOf_congr (users1 users2 : List (String × UserData))
    (hour : Int) (today uid : String)
    (h : lookupA users1 uid = lookupA users2 uid) :
    pendingOf users1 hour today uid = pendingOf users2 hour today uid := by
  unfold pendingOf
  rw [h]

theorem pendingOf_some (users : List (String × UserData)) (hour : Int)
    (today uid : String) (r : PendingReq)
    (h : pendingOf users hour today uid = some r) :
    r.user_id = uid ∧ r.date = today
      ∧ ∃ ud req, lookupA users uid = some ud
          ∧ lookupA ud.requests today = some req
          ∧ req.status = "pending" ∧ req.generation_hour = hour := by
  unfold pendingOf at h
  cases hud : lookupA users uid with
  | none => rw [hud] at h; simp at h
  | some ud =>
      rw [hud] at h
      dsimp only at h
      cases hreq : lookupA ud.requests today with
      | none => rw [hreq] at h; simp at h
      | some request =>
          rw [hreq] at h
          dsimp only at h
          by_cases hc : request.generation_hour = hour
              ∧ request.status = "pending"
          · rw [if_pos hc] at h
            cases h
            exact ⟨rfl, rfl, ud, request, rfl, hreq, hc.2, hc.1⟩
          · rw [if_neg hc] at h
            simp at h

theorem pendingLoop_eq (hour : Int) (c : Clock) :
    ∀ (uids : List String) (s : Storage),
      (∀ u ∈ uids, (lookupA s.users u).isSome = true) →
      pendingLoop hour c uids s
        = (uids.filterMap (pendingOf s.users hour c.today), s) := by
  intro uids
  induction uids with
  | nil => intro s _; rfl
  | cons u rest ih =>
      intro s hall
      obtain ⟨ud, hud⟩ := Option.isSome_iff_exists.mp
        (hall u (List.mem_cons_self u rest))
      have hg := getUserData_mem s u c.now_iso ud hud
      have hrest := ih s (fun v hv => hall v (List.mem_cons_of_mem u hv))
      cases hreq : lookupA ud.requests c.today with
      | none =>
          simp [pendingLoop, hg, hrest, List.filterMap_cons, pendingOf, hud,
            hreq]
      | some request =>
          by_cases hc : request.generation_hour = hour
              ∧ request.status = "pending"
          · simp [pendingLoop, hg, hrest, List.filterMap_cons, pendingOf,
              hud, hreq, hc]
          · simp [pendingLoop, hg, hrest, List.filterMap_cons, pendingOf,
              hud, hreq, hc]

theorem getPending_eq (s : Storage) (hour : Int) (c : Clock)
    (hvalid : hour ∈ validGenerationHours) :
    getPendingRequestsByHour s hour c
      = ((getAllUsers s).filterMap (pendingOf s.users hour c.today), s) := by
  unfold getPendingRequestsByHour
  rw [if_pos hvalid]
  exact pendingLoop_eq hour c (getAllUsers s) s
    (fun u hu => lookupA_isSome_of_mem_keys s.users u hu)

theorem filterMap_map_user_sublist
    (f : String → Option PendingReq)
    (hf : ∀ u r, f u = some r → r.user_id = u) :
    ∀ (uids : List String),
      ((uids.filterMap f).map (fun r => r.user_id)).Sublist uids := by
  intro uids
  induction uids with
  | nil => simp
  | cons u rest ih =>
      cases hu : f u with
      | none =>
          rw [List.filterMap_cons_none hu]
          exact ih.cons u
      | some r =>
          rw [List.filterMap_cons_some hu]
          rw [List.map_cons, hf u r hu]
          exact ih.cons₂ u

theorem pending_users_nodup (s : Storage) (hour : Int) (c : Clock)
    (hWF : (s.users.map (fun p => p.1)).Nodup) :
    (((getPendingRequestsByHour s hour c).1).map
      (fun r => r.user_id)).Nodup := by
  by_cases hvalid : hour ∈ validGenerationHours
  · rw [getPending_eq s hour c hvalid]
    exact List.Nodup.sublist
      (filterMap_map_user_sublist _
        (fun u r h => (pendingOf_some s.users hour c.today u r h).1)
        (getAllUsers s)) hWF
  · unfold getPendingRequestsByHour
    rw [if_neg hvalid]
    simp

/-! ## Per-job effect lemmas (for the batch claims) -/

/-- `outcomeSucceeds o` iff the generation call behind the job returned
normally. -/
def outcomeSucceeds : JobOutcome → Bool
  | JobOutcome.success _ _ => true
  | _ => false

/-- The classification step of the aggregation loop: an `ok` result with
`success=True`. -/
def isSuccResult : Except String SingleResult → Bool
  | Except.ok r => r.success
  | Except.error _ => false

/-- The pure result dict of `_process_single_request` as a function of the
job's generation outcome. -/
def jobResult (cfg : Config) (o : JobOutcome) (req : PendingReq) :
    Except String SingleResult :=
  match o with
  | JobOutcome.raised m => Except.error m
  | JobOutcome.success _ t =>
      Except.ok { success := true, user_id := req.user_id
                  theme := some req.theme, generation_time := some t
                  error := none }
  | JobOutcome.timeout =>
      Except.ok { success := false, user_id := req.user_id, theme := none
                  generation_time := none
                  error := some ("手紙生成がタイムアウトしました（"
                    ++ toString cfg.generation_timeout ++ "秒）") }
  | JobOutcome.exc m =>
      Except.ok { success := false, user_id := req.user_id, theme := none
                  generation_time := none
                  error := some ("手紙生成中にエラーが発生: " ++ m) }

theorem processSingleRequest_fst (cfg : Config) (o : JobOutcome)
    (s : Storage) (req : PendingReq) (c : Clock) (eid : String) :
    (processSingleRequest cfg o s req c eid).1 = jobResult cfg o req := by
  cases o <;> rfl

theorem isSuccResult_jobResult (cfg : Config) (o : JobOutcome)
    (req : PendingReq) :
    isSuccResult (jobResult cfg o req) = outcomeSucceeds o := by
  cases o <;> rfl

theorem getUserProfile_frame (s : Storage) (u : String) (c : Clock)
    (uid' : String) (h : uid' ≠ u) :
    lookupA (getUserProfile s u c).2.users uid' = lookupA s.users uid' := by
  simp only [getUserProfile]
  exact getUserData_frame s u c.now_iso uid' h

theorem getUserProfile_state (s : Storage) (u : String) (c : Clock)
    (ud : UserData) (hud : lookupA s.users u = some ud) :
    (getUserProfile s u c).2 = s := by
  simp only [getUserProfile, getUserData_mem s u c.now_iso ud hud]

theorem saveGeneratedLetter_eq (s : Storage) (u date th ct : String)
    (t : Nat) (c : Clock) (ud : UserData)
    (hud : lookupA s.users u = some ud) :
    saveGeneratedLetter s u date th ct t c
      = updateUserData s u
          { ud with
            letters := insertA ud.letters date
              { theme := th, content := ct, status := "completed"
                generated_at := c.now_iso, generation_time := t }
            profile := { ud.profile with
                         total_letters := ud.profile.total_letters + 1
                         last_request := some date } } := by
  simp only [saveGeneratedLetter, getUserData_mem s u c.now_iso ud hud]

theorem saveGeneratedLetter_frame (s : Storage) (u date th ct : String)
    (t : Nat) (c : Clock) (uid' : String) (h : uid' ≠ u) :
    lookupA (saveGeneratedLetter s u date th ct t c).users uid'
      = lookupA s.users uid' := by
  simp only [saveGeneratedLetter]
  rw [updateUserData_frame _ _ _ _ h]
  exact getUserData_frame s u c.now_iso uid' h

theorem markRequestProcessed_eq_some (s : Storage) (uid date st now : String)
    (ud : UserData) (req₀ : RequestRec)
    (hud : lookupA s.users uid = some ud)
    (hreq : lookupA ud.requests date = some req₀) :
    markRequestProcessed s uid date st now
      = (true, updateUserData s uid
          { ud with requests := insertA ud.requests date { req₀ with status := st, processed_at := some now } }) := by
  simp only [markRequestProcessed, getUserData_mem s uid now ud hud, hreq]

theorem markRequestProcessed_eq_none (s : Storage) (uid date st now : String)
    (ud : UserData)
    (hud : lookupA s.users uid = some ud)
    (hreq : lookupA ud.requests date = none) :
    markRequestProcessed s uid date st now = (false, s) := by
  simp only [markRequestProcessed, getUserData_mem s uid now ud hud, hreq]

theorem markRequestFailed_eq_some (s : Storage) (uid date err now : String)
    (ud : UserData) (req₀ : RequestRec)
    (hud : lookupA s.users uid = some ud)
    (hreq : lookupA ud.requests date = some req₀) :
    markRequestFailed s uid date err now
      = (true, updateUserData s uid
          { ud with requests := insertA ud.requests date { req₀ with status := "failed", processed_at := some now, error_message := some err } }) := by
  simp only [markRequestFailed, getUserData_mem s uid now ud hud, hreq]

theorem markRequestFailed_eq_none (s : Storage) (uid date err now : String)
    (ud : UserData)
    (hud : lookupA s.users uid = some ud)
    (hreq : lookupA ud.requests date = none) :
    markRequestFailed s uid date err now = (false, s) := by
  simp only [markRequestFailed, getUserData_mem s uid now ud hud, hreq]

theorem markRequestProcessed_frame (s : Storage) (uid date st now : String)
    (uid' : String) (h : uid' ≠ uid) :
    lookupA (markRequestProcessed s uid date st now).2.users uid'
      = lookupA s.users uid' := by
  simp only [markRequestProcessed]
  cases hm : lookupA (getUserData s uid now).1.requests date with
  | none =>
      dsimp only
      exact getUserData_frame s uid now uid' h
  | some request =>
      dsimp only
      rw [updateUserData_frame _ _ _ _ h]
      exact getUserData_frame s uid now uid' h

theorem markRequestFailed_frame (s : Storage) (uid date err now : String)
    (uid' : String) (h : uid' ≠ uid) :
    lookupA (markRequestFailed s uid date err now).2.users uid'
      = lookupA s.users uid' := by
  simp only [markRequestFailed]
  cases hm : lookupA (getUserData s uid now).1.requests date with
  | none =>
      dsimp only
      exact getUserData_frame s uid now uid' h
  | some request =>
      dsimp only
      rw [updateUserData_frame _ _ _ _ h]
      exact getUserData_frame s uid now uid' h

theorem updateUserHistory_frame (cfg : Config) (s : Storage) (u : String)
    (c : Clock) (eid : String) (uid' : String) (h : uid' ≠ u) :
    lookupA (updateUserHistory cfg s u c eid).2.users uid'
      = lookupA s.users uid' := by
  simp only [updateUserHistory]
  rw [updateUserData_frame _ _ _ _ h]
  exact getUserData_frame s u c.now_iso uid' h

theorem updateUserHistory_preserves (cfg : Config) (s : Storage)
    (u : String) (c : Clock) (eid : String) (ud : UserData)
    (hud : lookupA s.users u = some ud) :
    ∃ ud₂, lookupA (updateUserHistory cfg s u c eid).2.users u = some ud₂
      ∧ ud₂.letters = ud.letters ∧ ud₂.requests = ud.requests := by
  simp only [updateUserHistory, getUserData_mem s u c.now_iso ud hud]
  exact ⟨_, updateUserData_self _ _ _, rfl, rfl⟩

theorem processSingleRequest_frame (cfg : Config) (o : JobOutcome)
    (s : Storage) (req : PendingReq) (c : Clock) (eid : String)
    (uid' : String) (h : uid' ≠ req.user_id) :
    lookupA (processSingleRequest cfg o s req c eid).2.users uid'
      = lookupA s.users uid' := by
  cases o with
  | raised m => rfl
  | success ct t =>
      simp only [processSingleRequest]
      rw [updateUserHistory_frame _ _ _ _ _ _ h,
        markRequestProcessed_frame _ _ _ _ _ _ h,
        saveGeneratedLetter_frame _ _ _ _ _ _ _ _ h,
        getUserProfile_frame _ _ _ _ h]
  | timeout =>
      simp only [processSingleRequest]
      rw [markRequestFailed_frame _ _ _ _ _ _ h,
        getUserProfile_frame _ _ _ _ h]
  | exc m =>
      simp only [processSingleRequest]
      rw [markRequestFailed_frame _ _ _ _ _ _ h,
        getUserProfile_frame _ _ _ _ h]

/-- A letter is stored for `(uid, date)`. -/
def hasLetter (s : Storage) (uid date : String) : Prop :=
  ∃ ud, lookupA s.users uid = some ud
    ∧ (lookupA ud.letters date).isSome = true

/-- The stored status of the request for `(uid, date)`, when one exists. -/
def reqStatus (s : Storage) (uid date : String) : Option String :=
  ((lookupA s.users uid).bind (fun ud => lookupA ud.requests date)).map
    (fun q => q.status)

theorem markRequestProcessed_hasLetter (s : Storage)
    (uid date st now d : String) (h : hasLetter s uid d) :
    hasLetter (markRequestProcessed s uid date st now).2 uid d := by
  obtain ⟨ud, hud, hl⟩ := h
  cases hreq : lookupA ud.requests date with
  | none =>
      rw [markRequestProcessed_eq_none s uid date st now ud hud hreq]
      exact ⟨ud, hud, hl⟩
  | some req₀ =>
      rw [markRequestProcessed_eq_some s uid date st now ud req₀ hud hreq]
      exact ⟨_, updateUserData_self _ _ _, hl⟩

theorem updateUserHistory_hasLetter (cfg : Config) (s : Storage)
    (u : String) (c : Clock) (eid : String) (d : String)
    (h : hasLetter s u d) :
    hasLetter (updateUserHistory cfg s u c eid).2 u d := by
  obtain ⟨ud, hud, hl⟩ := h
  obtain ⟨ud₂, hud₂, hlet, _⟩ := updateUserHistory_preserves cfg s u c eid
    ud hud
  exact ⟨ud₂, hud₂, by rw [hlet]; exact hl⟩

theorem processSingleRequest_letter (cfg : Config) (ct : String) (t : Nat)
    (s : Storage) (req : PendingReq) (c : Clock) (eid : String)
    (ud : UserData) (hud : lookupA s.users req.user_id = some ud) :
    hasLetter (processSingleRequest cfg (JobOutcome.success ct t) s req c
      eid).2 req.user_id req.date := by
  simp only [processSingleRequest]
  rw [getUserProfile_state s req.user_id c ud hud]
  rw [saveGeneratedLetter_eq s req.user_id req.date req.theme ct t c ud hud]
  apply updateUserHistory_hasLetter
  apply markRequestProcessed_hasLetter
  exact ⟨_, updateUserData_self _ _ _, by
    dsimp only
    rw [lookupA_insertA_self]
    rfl⟩

theorem processSingleRequest_marks (cfg : Config) (o : JobOutcome)
    (s : Storage) (req : PendingReq) (c : Clock) (eid : String)
    (hno : ∀ m, o ≠ JobOutcome.raised m)
    (ud : UserData) (req₀ : RequestRec)
    (hud : lookupA s.users req.user_id = some ud)
    (hreq : lookupA ud.requests req.date = some req₀) :
    ∃ st, reqStatus (processSingleRequest cfg o s req c eid).2 req.user_id
        req.date = some st
      ∧ (st = "completed" ∨ st = "failed") := by
  cases o with
  | raised m => exact absurd rfl (hno m)
  | success ct t =>
      refine ⟨"completed", ?_, Or.inl rfl⟩
      simp only [processSingleRequest]
      rw [getUserProfile_state s req.user_id c ud hud]
      rw [saveGeneratedLetter_eq s req.user_id req.date req.theme ct t c ud
        hud]
      set ud₂ : UserData :=
        { ud with
          letters := insertA ud.letters req.date
            { theme := req.theme, content := ct, status := "completed"
              generated_at := c.now_iso, generation_time := t }
          profile := { ud.profile with
                       total_letters := ud.profile.total_letters + 1
                       last_request := some req.date } } with hud2def
      have hud₂ : lookupA (updateUserData s req.user_id ud₂).users
          req.user_id = some ud₂ := updateUserData_self s req.user_id ud₂
      have hreq₂ : lookupA ud₂.requests req.date = some req₀ := hreq
      rw [markRequestProcessed_eq_some _ req.user_id req.date "completed"
        c.now_iso ud₂ req₀ hud₂ hreq₂]
      set ud₃ : UserData := { ud₂ with requests := insertA ud₂.requests req.date { req₀ with status := "completed", processed_at := some c.now_iso } } with hud3def
      have hud₃ : lookupA (updateUserData (updateUserData s req.user_id ud₂)
          req.user_id ud₃).users req.user_id = some ud₃ :=
        updateUserData_self _ _ _
      obtain ⟨ud₄, hud₄, hlet₄, hreqs₄⟩ := updateUserHistory_preserves cfg
        (updateUserData (updateUserData s req.user_id ud₂) req.user_id ud₃)
        req.user_id c eid ud₃ hud₃
      simp [reqStatus, hud₄, hreqs₄, lookupA_insertA_self]
  | timeout =>
      refine ⟨"failed", ?_, Or.inr rfl⟩
      simp only [processSingleRequest]
      rw [getUserProfile_state s req.user_id c ud hud]
      rw [markRequestFailed_eq_some s req.user_id req.date _ c.now_iso ud
        req₀ hud hreq]
      simp [reqStatus, updateUserData_self, lookupA_insertA_self]
  | exc m =>
      refine ⟨"failed", ?_, Or.inr rfl⟩
      simp only [processSingleRequest]
      rw [getUserProfile_state s req.user_id c ud hud]
      rw [markRequestFailed_eq_some s req.user_id req.date _ c.now_iso ud
        req₀ hud hreq]
      simp [reqStatus, updateUserData_self, lookupA_insertA_self]

theorem reqStatus_congr (s1 s2 : Storage) (uid d : String)
    (h : lookupA s1.users uid = lookupA s2.users uid) :
    reqStatus s1 uid d = reqStatus s2 uid d := by
  unfold reqStatus
  rw [h]

theorem hasLetter_congr (s1 s2 : Storage) (uid d : String)
    (h : lookupA s1.users uid = lookupA s2.users uid)
    (hl : hasLetter s1 uid d) : hasLetter s2 uid d := by
  obtain ⟨ud, hud, hsome⟩ := hl
  exact ⟨ud, by rw [← h]; exact hud, hsome⟩

theorem runJobs_frame (cfg : Config) (c : Clock) :
    ∀ (reqs : List PendingReq) (gen : Nat → JobOutcome) (i : Nat)
      (s : Storage) (uid : String),
      uid ∉ reqs.map (fun r => r.user_id) →
      lookupA (runJobs cfg gen i reqs s c).2.users uid
        = lookupA s.users uid := by
  intro reqs
  induction reqs with
  | nil => intro gen i s uid _; rfl
  | cons req rest ih =>
      intro gen i s uid h
      rw [List.map_cons, List.mem_cons] at h
      push_neg at h
      simp only [runJobs]
      rw [ih gen (i + 1) _ uid h.2]
      exact processSingleRequest_frame cfg (gen i) s req c _ uid h.1

theorem runJobs_letter (cfg : Config) (c : Clock) :
    ∀ (reqs : List PendingReq) (gen : Nat → JobOutcome) (i : Nat)
      (s : Storage),
      (reqs.map (fun r => r.user_id)).Nodup →
      (∀ r ∈ reqs, (lookupA s.users r.user_id).isSome = true) →
      ∀ (j : Nat) (hj : j < reqs.length),
        outcomeSucceeds (gen (i + j)) = true →
        hasLetter (runJobs cfg gen i reqs s c).2
          (reqs.get ⟨j, hj⟩).user_id (reqs.get ⟨j, hj⟩).date := by
  intro reqs
  induction reqs with
  | nil =>
      intro gen i s _ _ j hj
      exact absurd hj (by simp)
  | cons req rest ih =>
      intro gen i s hnd hpres j hj hsucc
      rw [List.map_cons, List.nodup_cons] at hnd
      cases j with
      | zero =>
          rw [Nat.add_zero] at hsucc
          obtain ⟨ct, t, hg⟩ : ∃ ct t, gen i = JobOutcome.success ct t := by
            cases hg : gen i with
            | success ct t => exact ⟨ct, t, rfl⟩
            | timeout => rw [hg] at hsucc; simp [outcomeSucceeds] at hsucc
            | exc m => rw [hg] at hsucc; simp [outcomeSucceeds] at hsucc
            | raised m => rw [hg] at hsucc; simp [outcomeSucceeds] at hsucc
          obtain ⟨ud, hud⟩ := Option.isSome_iff_exists.mp
            (hpres req (List.mem_cons_self _ _))
          show hasLetter (runJobs cfg gen i (req :: rest) s c).2
            req.user_id req.date
          simp only [runJobs]
          apply hasLetter_congr _ _ req.user_id req.date
            (Eq.symm (runJobs_frame cfg c rest gen (i + 1) _ req.user_id
              hnd.1))
          rw [hg]
          exact processSingleRequest_letter cfg ct t s req c _ ud hud
      | succ j' =>
          have hpres' : ∀ r ∈ rest,
              (lookupA (processSingleRequest cfg (gen i) s req c
                ("entry-" ++ toString i)).2.users r.user_id).isSome
                = true := by
            intro r hr
            have hne : r.user_id ≠ req.user_id := by
              intro he
              exact hnd.1 (by rw [← he]; exact List.mem_map_of_mem _ hr)
            rw [processSingleRequest_frame cfg (gen i) s req c _ r.user_id
              hne]
            exact hpres r (List.mem_cons_of_mem _ hr)
          have hidx : i + (j' + 1) = (i + 1) + j' := by omega
          rw [hidx] at hsucc
          have := ih gen (i + 1)
            (processSingleRequest cfg (gen i) s req c
              ("entry-" ++ toString i)).2 hnd.2 hpres' j'
            (Nat.lt_of_succ_lt_succ hj) hsucc
          simpa only [runJobs, List.get] using this

theorem runJobs_marks (cfg : Config) (c : Clock) :
    ∀ (reqs : List PendingReq) (gen : Nat → JobOutcome) (i : Nat)
      (s : Storage),
      (reqs.map (fun r => r.user_id)).Nodup →
      (∀ r ∈ reqs, ∃ ud req₀, lookupA s.users r.user_id = some ud
          ∧ lookupA ud.requests r.date = some req₀) →
      (∀ j, j < reqs.length → ∀ m, gen (i + j) ≠ JobOutcome.raised m) →
      ∀ (j : Nat) (hj : j < reqs.length),
        ∃ st, reqStatus (runJobs cfg gen i reqs s c).2
            (reqs.get ⟨j, hj⟩).user_id (reqs.get ⟨j, hj⟩).date = some st
          ∧ (st = "completed" ∨ st = "failed") := by
  intro reqs
  induction reqs with
  | nil =>
      intro gen i s _ _ _ j hj
      exact absurd hj (by simp)
  | cons req rest ih =>
      intro gen i s hnd hpres hraise j hj
      rw [List.map_cons, List.nodup_cons] at hnd
      cases j with
      | zero =>
          obtain ⟨ud, req₀, hud, hreq⟩ := hpres req (List.mem_cons_self _ _)
          have hno : ∀ m, gen i ≠ JobOutcome.raised m := by
            intro m
            have := hraise 0 (by simp) m
            rwa [Nat.add_zero] at this
          obtain ⟨st, hst, hterm⟩ := processSingleRequest_marks cfg (gen i)
            s req c ("entry-" ++ toString i) hno ud req₀ hud hreq
          refine ⟨st, ?_, hterm⟩
          show reqStatus (runJobs cfg gen i (req :: rest) s c).2
            req.user_id req.date = some st
          simp only [runJobs]
          rw [reqStatus_congr _ _ req.user_id req.date
            (runJobs_frame cfg c rest gen (i + 1) _ req.user_id hnd.1)]
          exact hst
      | succ j' =>
          have hpres' : ∀ r ∈ rest, ∃ ud req₀,
              lookupA (processSingleRequest cfg (gen i) s req c
                ("entry-" ++ toString i)).2.users r.user_id = some ud
              ∧ lookupA ud.requests r.date = some req₀ := by
            intro r hr
            have hne : r.user_id ≠ req.user_id := by
              intro he
              exact hnd.1 (by rw [← he]; exact List.mem_map_of_mem _ hr)
            obtain ⟨ud, req₀, hud, hreq⟩ := hpres r
              (List.mem_cons_of_mem _ hr)
            exact ⟨ud, req₀, by
              rw [processSingleRequest_frame cfg (gen i) s req c _
                r.user_id hne]
              exact hud, hreq⟩
          have hraise' : ∀ j, j < rest.length → ∀ m,
              gen ((i + 1) + j) ≠ JobOutcome.raised m := by
            intro j hjr m
            have hidx : (i + 1) + j = i + (j + 1) := by omega
            rw [hidx]
            exact hraise (j + 1) (by rw [List.length_cons]; omega) m
          have := ih gen (i + 1)
            (processSingleRequest cfg (gen i) s req c
              ("entry-" ++ toString i)).2 hnd.2 hpres' hraise' j'
            (Nat.lt_of_succ_lt_succ hj)
          simpa only [runJobs, List.get] using this

theorem runJobs_count_all_succeed (cfg : Config) (c : Clock) :
    ∀ (reqs : List PendingReq) (gen : Nat → JobOutcome) (i : Nat)
      (s : Storage),
      (∀ j, j < reqs.length → outcomeSucceeds (gen (i + j)) = true) →
      ((runJobs cfg gen i reqs s c).1).countP isSuccResult = reqs.length := by
  intro reqs
  induction reqs with
  | nil => intro gen i s _; rfl
  | cons req rest ih =>
      intro gen i s h
      simp only [runJobs]
      rw [List.countP_cons]
      have hhead : isSuccResult (processSingleRequest cfg (gen i) s req c
          ("entry-" ++ toString i)).1 = true := by
        rw [processSingleRequest_fst, isSuccResult_jobResult]
        have := h 0 (by simp)
        rwa [Nat.add_zero] at this
      have htail : ((runJobs cfg gen (i + 1) rest
          (processSingleRequest cfg (gen i) s req c
            ("entry-" ++ toString i)).2 c).1).countP isSuccResult
          = rest.length := by
        apply ih
        intro j hj
        have hidx : (i + 1) + j = i + (j + 1) := by omega
        rw [hidx]
        exact h (j + 1) (by rw [List.length_cons]; omega)
      rw [htail, hhead]
      simp

theorem runJobs_count_one_fail (cfg : Config) (c : Clock) :
    ∀ (reqs : List PendingReq) (gen : Nat → JobOutcome) (i : Nat)
      (s : Storage) (k : Nat),
      k < reqs.length →
      outcomeSucceeds (gen (i + k)) = false →
      (∀ j, j < reqs.length → j ≠ k → outcomeSucceeds (gen (i + j)) = true) →
      ((runJobs cfg gen i reqs s c).1).countP isSuccResult
        = reqs.length - 1 := by
  intro reqs
  induction reqs with
  | nil => intro gen i s k hk; exact absurd hk (by simp)
  | cons req rest ih =>
      intro gen i s k hk hfail hsucc
      simp only [runJobs]
      rw [List.countP_cons]
      cases k with
      | zero =>
          have hhead : isSuccResult (processSingleRequest cfg (gen i) s req c
              ("entry-" ++ toString i)).1 = false := by
            rw [processSingleRequest_fst, isSuccResult_jobResult]
            rwa [Nat.add_zero] at hfail
          have htail : ((runJobs cfg gen (i + 1) rest
              (processSingleRequest cfg (gen i) s req c
                ("entry-" ++ toString i)).2 c).1).countP isSuccResult
              = rest.length := by
            apply runJobs_count_all_succeed
            intro j hj
            have hidx : (i + 1) + j = i + (j + 1) := by omega
            rw [hidx]
            exact hsucc (j + 1) (by rw [List.length_cons]; omega)
              (Nat.succ_ne_zero j)
          rw [htail, hhead]
          simp
      | succ k' =>
          have hhead : isSuccResult (processSingleRequest cfg (gen i) s req c
              ("entry-" ++ toString i)).1 = true := by
            rw [processSingleRequest_fst, isSuccResult_jobResult]
            have h0 := hsucc 0 (by simp) (by omega)
            rwa [Nat.add_zero] at h0
          have hk' : k' < rest.length := Nat.lt_of_succ_lt_succ hk
          have htail : ((runJobs cfg gen (i + 1) rest
              (processSingleRequest cfg (gen i) s req c
                ("entry-" ++ toString i)).2 c).1).countP isSuccResult
              = rest.length - 1 := by
            apply ih gen (i + 1) _ k' hk'
            · have hidx : (i + 1) + k' = i + (k' + 1) := by omega
              rw [hidx]
              exact hfail
            · intro j hj hne
              have hidx : (i + 1) + j = i + (j + 1) := by omega
              rw [hidx]
              exact hsucc (j + 1) (by rw [List.length_cons]; omega)
                (by omega)
          rw [htail, hhead]
          rw [List.length_cons]
          simp
          omega

theorem aggStep_fst (pending : List PendingReq) :
    ∀ (l : List (Nat × Except String SingleResult))
      (acc : Nat × Nat × List BatchErrorEntry),
      (l.foldl (aggStep pending) acc).1
        = acc.1 + l.countP (fun p => isSuccResult p.2) := by
  intro l
  induction l with
  | nil => intro acc; simp
  | cons x rest ih =>
      intro acc
      rw [List.foldl_cons, ih, List.countP_cons]
      cases hx : x.2 with
      | error e =>
          have h1 : (aggStep pending acc x).1 = acc.1 := by
            unfold aggStep
            rw [hx]
          rw [h1]
          simp [hx, isSuccResult]
      | ok r =>
          by_cases hs : r.success = true
          · have h1 : (aggStep pending acc x).1 = acc.1 + 1 := by
              unfold aggStep
              rw [hx]
              simp [hs]
            rw [h1]
            simp [hx, isSuccResult, hs]
            omega
          · have h1 : (aggStep pending acc x).1 = acc.1 := by
              unfold aggStep
              rw [hx]
              simp [hs]
            rw [h1]
            simp [hx, isSuccResult, hs]

theorem countP_enumFrom (q : Except String SingleResult → Bool) :
    ∀ (l : List (Except String SingleResult)) (n : Nat),
      (List.enumFrom n l).countP (fun p => q p.2) = l.countP q := by
  intro l
  induction l with
  | nil => intro n; rfl
  | cons x rest ih =>
      intro n
      have hc : List.enumFrom n (x :: rest)
          = (n, x) :: List.enumFrom (n + 1) rest := rfl
      rw [hc, List.countP_cons, List.countP_cons, ih]

theorem aggregateResults_fst (pending : List PendingReq)
    (results : List (Except String SingleResult)) :
    (aggregateResults pending results).1 = results.countP isSuccResult := by
  unfold aggregateResults
  rw [aggStep_fst pending results.enum (0, 0, [])]
  have he : results.enum = List.enumFrom 0 results := rfl
  rw [he, countP_enumFrom]
  simp

theorem pending_mem_present (s : Storage) (hour : Int) (c : Clock)
    (hval : hour ∈ validGenerationHours) :
    ∀ r ∈ (getPendingRequestsByHour s hour c).1,
      r.date = c.today ∧ ∃ ud req₀, lookupA s.users r.user_id = some ud
        ∧ lookupA ud.requests c.today = some req₀ := by
  intro r hr
  have hfst : (getPendingRequestsByHour s hour c).1
      = (getAllUsers s).filterMap (pendingOf s.users hour c.today) := by
    rw [getPending_eq s hour c hval]
  rw [hfst] at hr
  obtain ⟨u, _, hpo⟩ := List.mem_filterMap.mp hr
  obtain ⟨huid, hdate, ud, req₀, hud, hreq, _, _⟩ :=
    pendingOf_some s.users hour c.today u r hpo
  exact ⟨hdate, ud, req₀, by rw [huid]; exact hud, hreq⟩

/-- C4: for a batch over the discovered pending requests in which exactly
one job fails (by timeout or a caught exception) and every other job
succeeds, the aggregate reports `success_count = N-1` and
`failed_count = 1`, and every one of the N-1 successful jobs' Letters is
persisted — the failing job does not abort or cancel any sibling job. -/
theorem batch_single_failure_isolated (cfg : Config)
    (gen : Nat → JobOutcome) (s : Storage) (hour : Int) (c : Clock) (k : Nat)
    (hWF : (s.users.map (fun p => p.1)).Nodup)
    (hk : k < (getPendingRequestsByHour s hour c).1.length)
    (hfail : outcomeSucceeds (gen k) = false)
    (hsucc : ∀ i, i < (getPendingRequestsByHour s hour c).1.length →
        i ≠ k → ∃ ct t, gen i = JobOutcome.success ct t) :
    ((processPendingRequestsForHour cfg gen none s hour c).1.success_count
        = (getPendingRequestsByHour s hour c).1.length - 1)
  ∧ ((processPendingRequestsForHour cfg gen none s hour c).1.failed_count
        = 1)
  ∧ (∀ i (hi : i < (getPendingRequestsByHour s hour c).1.length), i ≠ k →
      hasLetter (processPendingRequestsForHour cfg gen none s hour c).2
        (((getPendingRequestsByHour s hour c).1).get ⟨i, hi⟩).user_id
        (((getPendingRequestsByHour s hour c).1).get ⟨i, hi⟩).date) := by
  have hval : hour ∈ validGenerationHours := by
    by_contra hinv
    have hnil : getPendingRequestsByHour s hour c = ([], s) := by
      unfold getPendingRequestsByHour
      rw [if_neg hinv]
    rw [hnil] at hk
    simp at hk
  have hdisc2 : (getPendingRequestsByHour s hour c).2 = s := by
    rw [getPending_eq s hour c hval]
  have hPne : (getPendingRequestsByHour s hour c).1.isEmpty = false := by
    cases hP : (getPendingRequestsByHour s hour c).1 with
    | nil => rw [hP] at hk; simp at hk
    | cons a l => simp [hP]
  have hsucc' : ∀ j, j < (getPendingRequestsByHour s hour c).1.length →
      j ≠ k → outcomeSucceeds (gen (0 + j)) = true := by
    intro j hj hne
    obtain ⟨ct, t, hg⟩ := hsucc j hj hne
    rw [Nat.zero_add, hg]
    rfl
  have hfail' : outcomeSucceeds (gen (0 + k)) = false := by
    rwa [Nat.zero_add]
  have hcount := runJobs_count_one_fail cfg c
    (getPendingRequestsByHour s hour c).1 gen 0
    (getPendingRequestsByHour s hour c).2 k hk hfail' hsucc'
  have hsum := aggregateResults_sum (getPendingRequestsByHour s hour c).1
    (runJobs cfg gen 0 (getPendingRequestsByHour s hour c).1
      (getPendingRequestsByHour s hour c).2 c).1
  have hlen := runJobs_length cfg gen c
    (getPendingRequestsByHour s hour c).1 0
    (getPendingRequestsByHour s hour c).2
  have hfst := aggregateResults_fst (getPendingRequestsByHour s hour c).1
    (runJobs cfg gen 0 (getPendingRequestsByHour s hour c).1
      (getPendingRequestsByHour s hour c).2 c).1
  refine ⟨?_, ?_, ?_⟩
  · simp only [processPendingRequestsForHour, hPne, Bool.false_eq_true,
      if_false]
    rw [hfst, hcount]
  · simp only [processPendingRequestsForHour, hPne, Bool.false_eq_true,
      if_false]
    rw [hfst, hcount] at hsum
    rw [hlen] at hsum
    omega
  · intro i hi hne
    simp only [processPendingRequestsForHour, hPne, Bool.false_eq_true,
      if_false]
    have hnd : (((getPendingRequestsByHour s hour c).1).map
        (fun r => r.user_id)).Nodup := pending_users_nodup s hour c hWF
    have hpres : ∀ r ∈ (getPendingRequestsByHour s hour c).1,
        (lookupA (getPendingRequestsByHour s hour c).2.users
          r.user_id).isSome = true := by
      intro r hr
      obtain ⟨_, ud, _, hud, _⟩ := pending_mem_present s hour c hval r hr
      rw [hdisc2, hud]
      rfl
    have hsi : outcomeSucceeds (gen (0 + i)) = true := hsucc' i hi hne
    exact runJobs_letter cfg c (getPendingRequestsByHour s hour c).1 gen 0
      (getPendingRequestsByHour s hour c).2 hnd hpres i hi hsi

/-- A pending request for 2025-01-01 at hour 2. -/
def pendingRequest (rid : String) : RequestRec :=
  { theme := "spring", status := "pending"
    requested_at := "2025-01-01T00:30:00", generation_hour := 2
    request_id := rid, affection := none
    processed_at := none, error_message := none }

/-- Two users, each with a pending request for hour 2 today. -/
def batchStorage : Storage :=
  { users :=
      [("u1", { defaultUserData "2025-01-01T00:00:00" with
                requests := [("2025-01-01", pendingRequest "r1")] }),
       ("u2", { defaultUserData "2025-01-01T00:00:00" with
                requests := [("2025-01-01", pendingRequest "r2")] })]
    system := { last_backup := none, batch_runs := []
                created_at := "2025-01-01T00:00:00" } }

/-- Job 0 times out; every other job succeeds. -/
def batchGen : Nat → JobOutcome :=
  fun j => if j = 0 then JobOutcome.timeout
           else JobOutcome.success "親愛なるあなたへ" 5

theorem batch_single_failure_isolated_witness :
    ((processPendingRequestsForHour defaultConfig batchGen none batchStorage
        2 sampleClock).1.success_count = 1)
  ∧ ((processPendingRequestsForHour defaultConfig batchGen none batchStorage
        2 sampleClock).1.failed_count = 1)
  ∧ hasLetter (processPendingRequestsForHour defaultConfig batchGen none
        batchStorage 2 sampleClock).2 "u2" "2025-01-01" := by
  have h := batch_single_failure_isolated defaultConfig batchGen
    batchStorage 2 sampleClock 0 (by decide) (by decide) (by decide)
    (by
      intro i hi hne
      have hi2 : i < 2 := by
        rwa [show ((getPendingRequestsByHour batchStorage 2
          sampleClock).1).length = 2 from by decide] at hi
      interval_cases i
      · exact absurd rfl hne
      · exact ⟨"親愛なるあなたへ", 5, rfl⟩)
  refine ⟨?_, h.2.1, ?_⟩
  · have h1 := h.1
    rwa [show ((getPendingRequestsByHour batchStorage 2
      sampleClock).1).length = 2 from by decide] at h1
  · have h2 := h.2.2 1 (by decide) (by decide)
    have hu : ((getPendingRequestsByHour batchStorage 2
        sampleClock).1).get ⟨1, by decide⟩
        = { user_id := "u2", theme := "spring"
            requested_at := "2025-01-01T00:30:00", generation_hour := 2
            request_id := "r2", date := "2025-01-01" } := by decide
    rw [hu] at h2
    exact h2

theorem recordBatchStart_users (s : Storage) (batchId : String) (hour : Int)
    (c : Clock) : (recordBatchStart s batchId hour c).users = s.users := rfl

theorem recordBatchCompletion_users (s : Storage) (batchId : String)
    (result : ProcessResult) (c : Clock) :
    (recordBatchCompletion s batchId result c).users = s.users := by
  simp only [recordBatchCompletion]
  cases h : lookupA (getSystemInfo s).batch_runs batchId with
  | none => rfl
  | some rec0 => rfl

theorem getPending_fst_congr (s₁ s₂ : Storage) (hour : Int) (c1 c2 : Clock)
    (hu : s₁.users = s₂.users) (ht : c1.today = c2.today) :
    (getPendingRequestsByHour s₁ hour c1).1
      = (getPendingRequestsByHour s₂ hour c2).1 := by
  by_cases hval : hour ∈ validGenerationHours
  · have h1 : (getPendingRequestsByHour s₁ hour c1).1
        = (getAllUsers s₁).filterMap (pendingOf s₁.users hour c1.today) := by
      rw [getPending_eq s₁ hour c1 hval]
    have h2 : (getPendingRequestsByHour s₂ hour c2).1
        = (getAllUsers s₂).filterMap (pendingOf s₂.users hour c2.today) := by
      rw [getPending_eq s₂ hour c2 hval]
    rw [h1, h2]
    unfold getAllUsers
    rw [hu, ht]
  · unfold getPendingRequestsByHour
    rw [if_neg hval, if_neg hval]

theorem processPending_empty (cfg : Config) (gen : Nat → JobOutcome)
    (s : Storage) (hour : Int) (c : Clock)
    (h : (getPendingRequestsByHour s hour c).1.isEmpty = true) :
    processPendingRequestsForHour cfg gen none s hour c
      = ({ processed_count := 0, success_count := 0, failed_count := 0
           errors := [] }, (getPendingRequestsByHour s hour c).2) := by
  simp only [processPendingRequestsForHour, h, if_true]

theorem processPending_nonempty_state (cfg : Config)
    (gen : Nat → JobOutcome) (s : Storage) (hour : Int) (c : Clock)
    (h : (getPendingRequestsByHour s hour c).1.isEmpty = false) :
    (processPendingRequestsForHour cfg gen none s hour c).2
      = (runJobs cfg gen 0 (getPendingRequestsByHour s hour c).1
          (getPendingRequestsByHour s hour c).2 c).2 := by
  simp only [processPendingRequestsForHour, h, Bool.false_eq_true, if_false]

theorem runHourlyBatch_state (cfg : Config) (gen : Nat → JobOutcome)
    (infra : Option String) (s : Storage) (hour : Int) (c : Clock)
    (h : hour ∈ availableHours) :
    (runHourlyBatch cfg gen infra s hour c).2
      = recordBatchCompletion
          (processPendingRequestsForHour cfg gen infra
            (recordBatchStart s (c.stamp ++ "_" ++ toString hour) hour c)
            hour c).2
          (c.stamp ++ "_" ++ toString hour)
          (processPendingRequestsForHour cfg gen infra
            (recordBatchStart s (c.stamp ++ "_" ++ toString hour) hour c)
            hour c).1 c := by
  unfold runHourlyBatch
  rw [if_neg (not_not_intro h)]

theorem runHourlyBatch_processed (cfg : Config) (gen : Nat → JobOutcome)
    (infra : Option String) (s : Storage) (hour : Int) (c : Clock)
    (h : hour ∈ availableHours) :
    (runHourlyBatch cfg gen infra s hour c).1.processed_count
      = some (processPendingRequestsForHour cfg gen infra
          (recordBatchStart s (c.stamp ++ "_" ++ toString hour) hour c)
          hour c).1.processed_count := by
  unfold runHourlyBatch
  rw [if_neg (not_not_intro h)]

theorem runHourlyBatch_success_count (cfg : Config)
    (gen : Nat → JobOutcome) (infra : Option String) (s : Storage)
    (hour : Int) (c : Clock) (h : hour ∈ availableHours) :
    (runHourlyBatch cfg gen infra s hour c).1.success_count
      = some (processPendingRequestsForHour cfg gen infra
          (recordBatchStart s (c.stamp ++ "_" ++ toString hour) hour c)
          hour c).1.success_count := by
  unfold runHourlyBatch
  rw [if_neg (not_not_intro h)]

theorem pendingOf_none_of_status (users : List (String × UserData))
    (hour : Int) (today u st : String)
    (h : ((lookupA users u).bind (fun ud => lookupA ud.requests today)).map
        (fun q => q.status) = some st)
    (hne : st ≠ "pending") : pendingOf users hour today u = none := by
  unfold pendingOf
  cases hud : lookupA users u with
  | none => rfl
  | some ud =>
      rw [hud] at h
      simp only [Option.bind] at h
      dsimp only
      cases hreq : lookupA ud.requests today with
      | none => rfl
      | some q =>
          rw [hreq] at h
          simp at h
          dsimp only
          rw [if_neg]
          intro hc
          exact hne (by rw [← h]; exact hc.2)

theorem pendingOf_mem (s : Storage) (hour : Int) (c : Clock)
    (hval : hour ∈ validGenerationHours) (u : String) (r : PendingReq)
    (hpo : pendingOf s.users hour c.today u = some r) :
    r ∈ (getPendingRequestsByHour s hour c).1 ∧ r.user_id = u := by
  obtain ⟨huid, _, ud, _, hud, _⟩ :=
    pendingOf_some s.users hour c.today u r hpo
  have hu : u ∈ getAllUsers s :=
    mem_keys_of_lookupA_isSome s.users u (by rw [hud]; rfl)
  have hfst : (getPendingRequestsByHour s hour c).1
      = (getAllUsers s).filterMap (pendingOf s.users hour c.today) := by
    rw [getPending_eq s hour c hval]
  refine ⟨?_, huid⟩
  rw [hfst]
  exact List.mem_filterMap.mpr ⟨u, hu, hpo⟩

theorem pendingOf_none_everywhere (s : Storage) (hour : Int) (c : Clock)
    (hval : hour ∈ validGenerationHours)
    (hnil : (getPendingRequestsByHour s hour c).1 = []) :
    ∀ u, pendingOf s.users hour c.today u = none := by
  intro u
  cases hpo : pendingOf s.users hour c.today u with
  | none => rfl
  | some r =>
      have hr := (pendingOf_mem s hour c hval u r hpo).1
      rw [hnil] at hr
      simp at hr

theorem processPending_clears (cfg : Config) (gen : Nat → JobOutcome)
    (s : Storage) (hour : Int) (c c2 : Clock)
    (hWF : (s.users.map (fun p => p.1)).Nodup)
    (htoday : c2.today = c.today)
    (hnoraise : ∀ j, j < (getPendingRequestsByHour s hour c).1.length →
        ∀ m, gen j ≠ JobOutcome.raised m) :
    (getPendingRequestsByHour
      (processPendingRequestsForHour cfg gen none s hour c).2 hour c2).1
      = [] := by
  by_cases hval : hour ∈ validGenerationHours
  case neg =>
      unfold getPendingRequestsByHour
      rw [if_neg hval]
  case pos =>
  have hdisc2 : (getPendingRequestsByHour s hour c).2 = s := by
    rw [getPending_eq s hour c hval]
  have hfst : ∀ (S : Storage), (getPendingRequestsByHour S hour c2).1
      = (getAllUsers S).filterMap (pendingOf S.users hour c2.today) := by
    intro S
    rw [getPending_eq S hour c2 hval]
  rw [hfst]
  apply List.filterMap_eq_nil_iff.mpr
  intro u _
  by_cases hemp : (getPendingRequestsByHour s hour c).1.isEmpty = true
  · -- no pending requests were discovered: the store is returned untouched
    have hnil : (getPendingRequestsByHour s hour c).1 = [] := by
      cases hP : (getPendingRequestsByHour s hour c).1 with
      | nil => rfl
      | cons a l => rw [hP] at hemp; simp at hemp
    have husers : (processPendingRequestsForHour cfg gen none s hour
        c).2.users = s.users := by
      rw [processPending_empty cfg gen s hour c hemp, hdisc2]
    rw [pendingOf_congr _ s.users hour c2.today u (by rw [husers])]
    rw [htoday]
    exact pendingOf_none_everywhere s hour c hval hnil u
  · -- the fan-out ran: every discovered request was marked
    have hemp' : (getPendingRequestsByHour s hour c).1.isEmpty = false := by
      cases he : (getPendingRequestsByHour s hour c).1.isEmpty
      · rfl
      · exact absurd he hemp
    have hstate := processPending_nonempty_state cfg gen s hour c hemp'
    have hnd := pending_users_nodup s hour c hWF
    have hpres : ∀ r ∈ (getPendingRequestsByHour s hour c).1,
        ∃ ud req₀, lookupA (getPendingRequestsByHour s hour
            c).2.users r.user_id = some ud
          ∧ lookupA ud.requests r.date = some req₀ := by
      intro r hr
      obtain ⟨hdate, ud, req₀, hud, hreq⟩ :=
        pending_mem_present s hour c hval r hr
      exact ⟨ud, req₀, by rw [hdisc2]; exact hud, by rw [hdate]; exact hreq⟩
    have hraise' : ∀ j, j < (getPendingRequestsByHour s hour c).1.length →
        ∀ m, gen (0 + j) ≠ JobOutcome.raised m := by
      intro j hj m
      rw [Nat.zero_add]
      exact hnoraise j hj m
    by_cases hmem : u ∈ ((getPendingRequestsByHour s hour c).1).map
        (fun r => r.user_id)
    · obtain ⟨r, hrP, hru⟩ := List.mem_map.mp hmem
      obtain ⟨⟨j, hj⟩, hget⟩ := List.mem_iff_get.mp hrP
      obtain ⟨st, hst, hterm⟩ := runJobs_marks cfg c
        (getPendingRequestsByHour s hour c).1 gen 0
        (getPendingRequestsByHour s hour c).2 hnd hpres hraise' j hj
      rw [hget] at hst
      have hdate := (pending_mem_present s hour c hval r hrP).1
      rw [hru, hdate] at hst
      unfold reqStatus at hst
      have hne : st ≠ "pending" := by
        rcases hterm with h | h <;> rw [h] <;> decide
      rw [htoday]
      apply pendingOf_none_of_status _ hour c.today u st _ hne
      have husers : (processPendingRequestsForHour cfg gen none s hour
          c).2.users = (runJobs cfg gen 0
            (getPendingRequestsByHour s hour c).1
            (getPendingRequestsByHour s hour c).2 c).2.users := by
        rw [hstate]
      rw [husers]
      exact hst
    · have hlook : lookupA (processPendingRequestsForHour cfg gen none s
          hour c).2.users u = lookupA s.users u := by
        rw [hstate]
        rw [runJobs_frame cfg c (getPendingRequestsByHour s hour c).1 gen 0
          (getPendingRequestsByHour s hour c).2 u hmem]
        rw [hdisc2]
      rw [pendingOf_congr _ s.users hour c2.today u hlook]
      rw [htoday]
      cases hpo : pendingOf s.users hour c.today u with
      | none => rfl
      | some r =>
          obtain ⟨hrP, hru⟩ := pendingOf_mem s hour c hval u r hpo
          exact absurd (by rw [← hru]; exact List.mem_map_of_mem _ hrP) hmem

/-- C5: when a first `run_hourly_batch(h)` completes successfully — every
discovered request is marked Completed or Failed, which holds whenever no
job's exception escapes the gather — a second `run_hourly_batch(h)` on the
same day finds zero pending requests and processes nothing: each Request is
processed at most once. -/
theorem hourly_batch_idempotent (cfg : Config)
    (gen gen2 : Nat → JobOutcome) (s : Storage) (hour : Int) (c c2 : Clock)
    (hWF : (s.users.map (fun p => p.1)).Nodup)
    (hhour : hour ∈ availableHours)
    (htoday : c2.today = c.today)
    (hnoraise : ∀ j, j < (getPendingRequestsByHour s hour c).1.length →
        ∀ m, gen j ≠ JobOutcome.raised m) :
    ((getPendingRequestsByHour (runHourlyBatch cfg gen none s hour c).2
        hour c2).1 = [])
  ∧ ((runHourlyBatch cfg gen2 none (runHourlyBatch cfg gen none s hour c).2
        hour c2).1.processed_count = some 0)
  ∧ ((runHourlyBatch cfg gen2 none (runHourlyBatch cfg gen none s hour c).2
        hour c2).1.success_count = some 0) := by
  have hstart_users : (recordBatchStart s
      (c.stamp ++ "_" ++ toString hour) hour c).users = s.users := rfl
  have hPeq : (getPendingRequestsByHour
      (recordBatchStart s (c.stamp ++ "_" ++ toString hour) hour c) hour
        c).1 = (getPendingRequestsByHour s hour c).1 :=
    getPending_fst_congr _ _ hour c c hstart_users rfl
  have hclears := processPending_clears cfg gen
    (recordBatchStart s (c.stamp ++ "_" ++ toString hour) hour c) hour c c2
    (by rw [hstart_users]; exact hWF) htoday
    (by rw [hPeq]; exact hnoraise)
  have hS'users : (runHourlyBatch cfg gen none s hour c).2.users
      = (processPendingRequestsForHour cfg gen none
          (recordBatchStart s (c.stamp ++ "_" ++ toString hour) hour c)
          hour c).2.users := by
    rw [runHourlyBatch_state cfg gen none s hour c hhour]
    rw [recordBatchCompletion_users]
  have hgoal1 : (getPendingRequestsByHour
      (runHourlyBatch cfg gen none s hour c).2 hour c2).1 = [] := by
    rw [getPending_fst_congr _ _ hour c2 c2 hS'users rfl]
    exact hclears
  have hsecond_empty : (getPendingRequestsByHour
      (recordBatchStart (runHourlyBatch cfg gen none s hour c).2
        (c2.stamp ++ "_" ++ toString hour) hour c2) hour
      c2).1.isEmpty = true := by
    rw [getPending_fst_congr
      (recordBatchStart (runHourlyBatch cfg gen none s hour c).2
        (c2.stamp ++ "_" ++ toString hour) hour c2)
      ((runHourlyBatch cfg gen none s hour c).2) hour c2 c2 rfl rfl]
    rw [hgoal1]
    rfl
  have hproc := runHourlyBatch_processed cfg gen2 none
    (runHourlyBatch cfg gen none s hour c).2 hour c2 hhour
  have hsucc := runHourlyBatch_success_count cfg gen2 none
    (runHourlyBatch cfg gen none s hour c).2 hour c2 hhour
  rw [processPending_empty cfg gen2 _ hour c2 hsecond_empty] at hproc hsucc
  exact ⟨hgoal1, hproc, hsucc⟩

theorem hourly_batch_idempotent_witness :
    ((getPendingRequestsByHour (runHourlyBatch defaultConfig batchGen none
        batchStorage 2 sampleClock).2 2 sampleClock).1 = [])
  ∧ ((runHourlyBatch defaultConfig batchGen none
        (runHourlyBatch defaultConfig batchGen none batchStorage 2
          sampleClock).2 2 sampleClock).1.processed_count = some 0) := by
  have h := hourly_batch_idempotent defaultConfig batchGen batchGen
    batchStorage 2 sampleClock sampleClock (by decide) (by decide) rfl
    (by
      intro j hj m
      by_cases h0 : j = 0 <;> simp [batchGen, h0])
  exact ⟨h.1, h.2.1⟩

end Mari
